import Mathlib

/-!
Verification of the Cloudpayroll schedule/variable pipeline
(`excel_a_json.py` / `json_a_excel.py`) against its natural-language
specification.  The Python sources are shallowly embedded: dictionaries
become structures with `Option` fields (a missing JSON key is `none`),
Python floats become exact rationals (`ℚ`), `round(x, n)` becomes
round-half-even at `n` decimals on `ℚ`, and the one caught top-level
exception path of `calcular_variables` is modelled with `Except`.
Values on which Python `float()` raises are modelled by the `PyVal.other`
constructor; numbers by `PyVal.num`.
-/

/-! ### Python-style character and string helpers

`str.lower`, `\w`/`\s` classes and the diacritics folding of
`normalizar_texto` are implemented for the ASCII + Latin-1 repertoire the
repository's tables use (`áéíóúüñç` and their uppercase forms).
-/

/-- Python `\s` class (ASCII part, which is all the repository feeds it). -/
def isPySpace (c : Char) : Bool :=
  c = ' ' || c = '\t' || c = '\n' || c = '\x0d' || c = '\x0b' || c = '\x0c'

/-- Python `str.lower` on the character repertoire used by the tables. -/
def pyLowerChar (c : Char) : Char :=
  if 'A' ≤ c ∧ c ≤ 'Z' then Char.ofNat (c.toNat + 32)
  else if c = 'Á' then 'á' else if c = 'É' then 'é'
  else if c = 'Í' then 'í' else if c = 'Ó' then 'ó'
  else if c = 'Ú' then 'ú' else if c = 'Ü' then 'ü'
  else if c = 'Ñ' then 'ñ' else if c = 'Ç' then 'ç'
  else if c = 'À' then 'à' else if c = 'È' then 'è'
  else if c = 'Ì' then 'ì' else if c = 'Ò' then 'ò'
  else if c = 'Ù' then 'ù' else c

def pyLower (cs : List Char) : List Char := cs.map pyLowerChar

/-- NFKD decomposition followed by dropping combining marks, restricted to
the accented vowels occurring in the repository (the general Unicode case
never arises in its tables). -/
def deaccentChar (c : Char) : Char :=
  if c = 'á' ∨ c = 'à' ∨ c = 'â' ∨ c = 'ä' then 'a'
  else if c = 'é' ∨ c = 'è' ∨ c = 'ê' ∨ c = 'ë' then 'e'
  else if c = 'í' ∨ c = 'ì' ∨ c = 'î' ∨ c = 'ï' then 'i'
  else if c = 'ó' ∨ c = 'ò' ∨ c = 'ô' ∨ c = 'ö' then 'o'
  else if c = 'ú' ∨ c = 'ù' ∨ c = 'û' ∨ c = 'ü' then 'u'
  else c

def isAsciiDigit (c : Char) : Bool := '0' ≤ c ∧ c ≤ '9'

def isLowerAlpha (c : Char) : Bool := 'a' ≤ c ∧ c ≤ 'z'

/-- Letter class `[a-záéíóúñ]` of the schedule regexes (with `re.IGNORECASE`
folding the uppercase forms onto it). -/
def isDayLetter (c : Char) : Bool :=
  isLowerAlpha (pyLowerChar c) ||
    (pyLowerChar c = 'á' || pyLowerChar c = 'é' || pyLowerChar c = 'í' ||
     pyLowerChar c = 'ó' || pyLowerChar c = 'ú' || pyLowerChar c = 'ñ')

/-- Python `\w` (word character) for the repertoire in play. -/
def isWordChar (c : Char) : Bool :=
  isAsciiDigit c || c = '_' || isDayLetter c ||
    ('A' ≤ c ∧ c ≤ 'Z') || c = 'ü' || c = 'Ü' || c = 'ç' || c = 'Ç'

/-- Auxiliary for `collapseSpaces`: the flag records whether the previous
character was whitespace (already emitted as one space). -/
def collapseSpacesAux : Bool → List Char → List Char
  | _, [] => []
  | prevSpace, c :: cs =>
    if isPySpace c then
      if prevSpace then collapseSpacesAux true cs
      else ' ' :: collapseSpacesAux true cs
    else c :: collapseSpacesAux false cs

/-- Collapse runs of whitespace to single spaces (`re.sub(r'\s+', ' ', _)`). -/
def collapseSpaces (cs : List Char) : List Char := collapseSpacesAux false cs

/-- Python `str.strip()` (whitespace at both ends). -/
def pyStrip (cs : List Char) : List Char :=
  ((cs.dropWhile isPySpace).reverse.dropWhile isPySpace).reverse

/-- Substring containment, Python `needle in hay`. -/
def containsSub (needle hay : List Char) : Bool :=
  match hay with
  | [] => needle.isEmpty
  | _ :: t => needle.isPrefixOf hay || containsSub needle t

def strContains (hay needle : String) : Bool :=
  containsSub needle.data hay.data

/-! ### Python `round` on exact rationals

`round(x, n)` in Python is round-half-to-even.  The repository only rounds
values whose decimal expansion is far from a representation tie, so the
exact-rational model coincides with the float behaviour on every value the
claims touch. -/

/-- Round-half-even of a rational to an integer. -/
def rhe (q : ℚ) : ℤ :=
  let f : ℤ := ⌊q⌋
  let r : ℚ := q - (f : ℚ)
  if r < 1/2 then f
  else if r > 1/2 then f + 1
  else if f % 2 = 0 then f else f + 1

/-- Python `round(x, 2)`. -/
def round2 (q : ℚ) : ℚ := (rhe (q * 100) : ℚ) / 100

/-- Python `round(x, 4)`. -/
def round4 (q : ℚ) : ℚ := (rhe (q * 10000) : ℚ) / 10000

/-- Python `int(x)` (truncation toward zero). -/
def pyInt (q : ℚ) : ℤ := if 0 ≤ q then ⌊q⌋ else -⌊-q⌋

/-! ### JSON-ish values

`PyVal.num q` models a Python number of value `q`; `PyVal.other s` models
any value on which `float()` raises (tagged by a string for concreteness).
The summarizer only ever writes numbers into the summary, so this covers
the full reachable input space of the rule engine. -/

inductive PyVal where
  | num (q : ℚ)
  | other (s : String)
deriving DecidableEq

/-- Python `float(v)` as used defensively throughout the rule engine. -/
def pyFloat : PyVal → Option ℚ
  | .num q => some q
  | .other _ => none

/-! ### `normalizar_texto` (json_a_excel.py, lines 72-108)

lower-case, fold `ñ`/`ç`, NFKD-deaccent, replace anything outside
`[a-z0-9\s]` by a space, collapse whitespace and strip. -/

def normalizar_texto (s : String) : String :=
  let cs := pyLower s.data
  let cs := cs.map (fun c => if c = 'ñ' then 'n' else if c = 'ç' then 'c' else c)
  let cs := cs.map deaccentChar
  let cs := cs.map (fun c =>
    if isLowerAlpha c || isAsciiDigit c || isPySpace c then c else ' ')
  String.mk (pyStrip (collapseSpaces cs))

/-- `normalizar_texto` applied to a possibly-absent field (`None` → `""`,
matching the `texto is None` branch of the Python function). -/
def normalizar_textoOpt : Option String → String
  | none => ""
  | some s => normalizar_texto s

/-- Python `str.lower` on a whole string. -/
def pyLowerStr (s : String) : String := String.mk (pyLower s.data)

/-- ASCII upper-case (enough for the already-normalized strings it is
applied to, which are `[a-z0-9 ]` only). -/
def pyUpperChar (c : Char) : Char :=
  if 'a' ≤ c ∧ c ≤ 'z' then Char.ofNat (c.toNat - 32) else c

def pyUpperStr (s : String) : String := String.mk (s.data.map pyUpperChar)

/-- Python `str.replace(old, new)`: left-to-right, non-overlapping,
scanning resumes after the inserted replacement. -/
def pyReplaceAux (old new : List Char) : ℕ → List Char → List Char
  | _, [] => []
  | 0, cs => cs
  | fuel + 1, c :: cs =>
    if old.isPrefixOf (c :: cs) then
      new ++ pyReplaceAux old new fuel (List.drop old.length (c :: cs))
    else
      c :: pyReplaceAux old new fuel cs

def pyReplace (s : String) (old new : String) : String :=
  if old.data.isEmpty then s
  else String.mk (pyReplaceAux old.data new.data s.data.length s.data)

/-- Python `int(str)` on a plain digit string (the only shape the engine
feeds it); anything else raises, modelled as `none`. -/
def pyIntOfDigits (cs : List Char) : Option ℕ :=
  if cs ≠ [] ∧ cs.all isAsciiDigit then
    some (cs.foldl (fun acc c => acc * 10 + (c.toNat - 48)) 0)
  else none

/-! ### Rule-engine data model (json_a_excel.py)

An employee record (`legajo`) as the rule engine receives it from the
JSON file.  A missing key is `none`; `id_legajo` is always present (the
caller `procesar_archivo_json` validates it with
`validar_estructura_legajo` and the ingestion writes `int(legajo)`).
The per-day summary entries carry exactly the keys the engine reads. -/

structure EntradaJson where
  inicio : Option String
  duracion_total : Option ℚ
  horas_nocturnas : Option ℚ
  periodicidad : Option String
  horas_semanales : Option ℚ
deriving DecidableEq

structure ResumenJson where
  total_horas_semanales : Option PyVal
  total_horas_nocturnas : Option PyVal
  dias_trabajo : List ℤ
  bloques_por_dia : List (String × List EntradaJson)
deriving DecidableEq

/-- One entry of `horario.bloques` as the engine validates it: only the
presence of the three required keys is ever inspected. -/
structure BloqueJson where
  dias_semana : Option (List ℤ)
  hora_inicio : Option String
  hora_fin : Option String
deriving DecidableEq

structure HorarioJson where
  bloques : List BloqueJson
  resumen : Option ResumenJson
deriving DecidableEq

structure SectorJson where
  principal : Option String
  subsector : Option String
deriving DecidableEq

structure DatosPersonales where
  sede : Option String
  puesto : Option String
  sector : Option SectorJson
deriving DecidableEq

structure FechasJson where
  ingreso : Option String
  fin : Option String
deriving DecidableEq

structure Contratacion where
  tipo : Option String
  categoria : Option String
  fechas : Option FechasJson
deriving DecidableEq

structure Remuneracion where
  sueldo_base : Option PyVal
  adicionables : Option String
deriving DecidableEq

structure Legajo where
  id_legajo : ℤ
  datos_personales : Option DatosPersonales
  contratacion : Option Contratacion
  horario : Option HorarioJson
  remuneracion : Option Remuneracion
deriving DecidableEq

/-! Accessors mirroring the chained `.get(..., {})` / `.get(...)` calls. -/

def dp_sede (l : Legajo) : Option String := l.datos_personales.bind (·.sede)

def dp_puesto (l : Legajo) : Option String := l.datos_personales.bind (·.puesto)

def dp_sector (l : Legajo) : Option SectorJson := l.datos_personales.bind (·.sector)

def dp_sector_principal (l : Legajo) : Option String := (dp_sector l).bind (·.principal)

def dp_subsector (l : Legajo) : Option String := (dp_sector l).bind (·.subsector)

def contr_categoria (l : Legajo) : Option String := l.contratacion.bind (·.categoria)

def contr_tipo (l : Legajo) : Option String := l.contratacion.bind (·.tipo)

def contr_fecha_fin (l : Legajo) : Option String :=
  (l.contratacion.bind (·.fechas)).bind (·.fin)

def rem_sueldo (l : Legajo) : Option PyVal := l.remuneracion.bind (·.sueldo_base)

def rem_adicionables (l : Legajo) : Option String := l.remuneracion.bind (·.adicionables)

def resumen_of (l : Legajo) : Option ResumenJson := l.horario.bind (·.resumen)

def bpd_of (l : Legajo) : List (String × List EntradaJson) :=
  match resumen_of l with
  | some r => r.bloques_por_dia
  | none => []

def dias_trabajo_of (l : Legajo) : List ℤ :=
  match resumen_of l with
  | some r => r.dias_trabajo
  | none => []

def ths_of (l : Legajo) : Option PyVal := (resumen_of l).bind (·.total_horas_semanales)

def thn_of (l : Legajo) : Option PyVal := (resumen_of l).bind (·.total_horas_nocturnas)

/-! ### Normalized constants (json_a_excel.py, lines 129-290)

Each constant is built, as in the source, by applying `normalizar_texto`
to the raw strings. -/

def pe_TELEFONISTA : String := normalizar_texto "TELEFONISTA"

def pe_RECEP_LAB : String := normalizar_texto "RECEPCIONISTA DE LABORATORIO"

def pe_TEC_CARDIO : String := normalizar_texto "TECNICO EN PRACTICAS CARDIOLOGICAS"

def pe_OP_LOGISTICA : String := normalizar_texto "OPERARIO DE LOGISTICA"

def pe_MEDICO : String := normalizar_texto "MEDICO"

def pe_MEDICA : String := normalizar_texto "MEDICA"

def pe_MEDICO_A : String := normalizar_texto "MEDICO/A"

def pe_ODONTOLOGO : String := normalizar_texto "ODONTOLOGO/A"

def pe_ODONTOLOGO_FELLOW : String := normalizar_texto "ODONTOLOGO/A FELLOW"

/-- `PUESTOS_ESPECIALES.values()` in dict insertion order. -/
def puestosEspecialesValues : List String :=
  [pe_TELEFONISTA, pe_RECEP_LAB, pe_TEC_CARDIO, pe_OP_LOGISTICA,
   pe_MEDICO, pe_MEDICA, pe_MEDICO_A, pe_ODONTOLOGO, pe_ODONTOLOGO_FELLOW]

def valores_profesionales_para_comparacion : List String :=
  [pe_MEDICO, pe_MEDICA, pe_MEDICO_A, pe_ODONTOLOGO, pe_ODONTOLOGO_FELLOW]

def SECTOR_EXCLUIDO_LABORATORIO : String := normalizar_texto "Laboratorio"

def SECTORES_IMAGENES : List String :=
  [normalizar_texto "MAMOGRAFIA", normalizar_texto "IMAGENES DMF",
   normalizar_texto "TOMOGRAFIA COMPUTADA", normalizar_texto "DENSITOMETRIA",
   normalizar_texto "MEDICINA NUCLEAR", normalizar_texto "PET/CT",
   normalizar_texto "RADIOLOGIA", normalizar_texto "RESONANCIA MAGNETICA",
   normalizar_texto "IMAGENES"]

def SECTORES_ESPECIALES_HORAS_156 : List String :=
  [normalizar_texto "LABORATORIO", normalizar_texto "MAMOGRAFIA",
   normalizar_texto "IMAGENES DMF", normalizar_texto "TOMOGRAFIA COMPUTADA",
   normalizar_texto "DENSITOMETRIA", normalizar_texto "MEDICINA NUCLEAR",
   normalizar_texto "PET/CT", normalizar_texto "RADIOLOGIA",
   normalizar_texto "RESONANCIA MAGNETICA"]

def SEDES_NO_LIQUIDA_PLUS : List String :=
  [normalizar_texto "CLINICA BAZTERRICA", normalizar_texto "CLINICA DEL SOL",
   normalizar_texto "CONSULTORIOS BAZTERRICA", normalizar_texto "PATERNAL",
   normalizar_texto "C DEL SOL", normalizar_texto "CDS",
   normalizar_texto "C. DEL SOL"]

/-- Allow-list of sites for the guard flag (json_a_excel.py, lines 211-223). -/
def sedes_permitidas : List String :=
  [normalizar_texto "clínica del sol", normalizar_texto "c. del sol",
   normalizar_texto "cds", normalizar_texto "san miguel",
   normalizar_texto "sm", normalizar_texto "bazterrica",
   normalizar_texto "cons. ext. cl. bazterrica", normalizar_texto "clinica bazterrica",
   normalizar_texto "Cons. Ext. Cl. Bazterrica", normalizar_texto "Santa Isabel",
   normalizar_texto "Clinica Santa Isabel"]

def SECTORES_MEDICOS : List String :=
  [normalizar_texto "ECOGRAFIA", normalizar_texto "MAMOGRAFIA"]

def DIAS_ESPECIALES : List ℤ := [0, 1, 2]

def art19PuestosValidos : List String :=
  [normalizar_texto "TECNICO DE LABORATORIO", normalizar_texto "EXTRACCIONISTA",
   normalizar_texto "BIOQUIMICO", normalizar_texto "AUXILIAR TÉCNICO"]

def art19SectorValido : String := normalizar_texto "LABORATORIO"

/-- `ConfigArt19.CATEGORIA_PREFIX`. -/
def art19CategoriaPrefijo : String := "dc_"

def extensionPuestosValidos : List String :=
  [normalizar_texto "TECNICO", normalizar_texto "TECNICO PIVOT"]

def bioimagenesPuestosValidos : List String :=
  [normalizar_texto "TECNICO", normalizar_texto "TECNICO DE REPROCESO",
   normalizar_texto "TECNICO PIVOT"]

def bioimagenesTerminosAdicionales : List String :=
  [normalizar_texto "LIC. EN BIOIMAGENES", normalizar_texto "BIOIMAGENES",
   normalizar_texto "LICENCIADO EN BIOIMAGENES", normalizar_texto "PRESENTÓ TÍTULO",
   normalizar_texto "TÍTULO"]

def TERMINOS_CESION : List String :=
  [normalizar_texto "Cesión", normalizar_texto "CECION"]

/-! ### Rule-engine helper functions (json_a_excel.py)

Each function is a direct transcription; its internal `try/except`
handlers correspond to the `Option`/default branches noted inline.
Logging calls are pure in Lean terms (they never raise here because
`id_legajo` is always present in the model, see `Legajo`). -/

/-- Possible exceptions of the modelled fragment: `validar_horario`
indexes `legajo['horario']` directly, so a record without that key raises
a `KeyError` that only the top-level handler of `calcular_variables`
catches. -/
inductive PyErr where
  | keyError (k : String)
deriving DecidableEq

/-- A block of `horario.bloques` has the three keys `validar_horario`
requires. -/
def bloqueCompleto (b : BloqueJson) : Bool :=
  b.dias_semana.isSome && b.hora_inicio.isSome && b.hora_fin.isSome

/-- `validar_horario` (lines 911-931): empty block list or any block
missing a required key means the schedule is not interpretable. -/
def validar_horario (l : Legajo) : Except PyErr Bool :=
  match l.horario with
  | none => .error (.keyError "horario")
  | some h =>
    if h.bloques.isEmpty then .ok false
    else if h.bloques.all bloqueCompleto then .ok true
    else .ok false

/-- Periodicity weight of one worked day in `es_guardia` (lines 986-1003):
0.5 when some block of the day is biweekly, 1.0 otherwise. -/
def pesoDiaGuardia (entradas : List EntradaJson) : ℚ :=
  if entradas.any (fun e => e.periodicidad.getD "semanal" = "quincenal") then 1/2 else 1

/-- Periodicity-weighted worked-day count of `es_guardia`. -/
def dias_trabajados_ponderados (bpd : List (String × List EntradaJson)) : ℚ :=
  (bpd.map (fun p => pesoDiaGuardia p.2)).sum

/-- `es_guardia` (lines 953-1016). -/
def es_guardia (l : Legajo) : Bool :=
  let sede_raw := (dp_sede l).getD ""
  let sede_normalizada := normalizar_texto sede_raw
  if !(sedes_permitidas.contains sede_normalizada) then false
  else
    let adicionables := (rem_adicionables l).getD ""
    let adicionables_normalizados := normalizar_texto adicionables
    if !(strContains adicionables_normalizados "full guardia") then false
    else if dias_trabajados_ponderados (bpd_of l) > 3 then false
    else true

/-- `obtener_horas_semanales` (lines 1119-1139): `None` → 0, a value
`float()` rejects → 0 (caught `ValueError`), out of `[0,168]` → 0. -/
def obtener_horas_semanales (l : Legajo) : ℚ :=
  match ths_of l with
  | none => 0
  | some v =>
    match pyFloat v with
    | none => 0
    | some horas => if horas < 0 ∨ horas > 168 then 0 else horas

/-- Weight a single summary entry contributes in `calcular_dias_mensuales`
(lines 1163-1198); `none` when its periodicity is not recognized. -/
def pesoEntrada1242 (e : EntradaJson) : Option ℚ :=
  let p := pyLowerStr (e.periodicidad.getD "")
  if p = "semanal" then some 1
  else if p = "quincenal" then some (1/2)
  else if p = "mensual" then some (1/4)
  else if p = "proporcional" then
    let horas_semanales := e.horas_semanales.getD 0
    let duracion_total := e.duracion_total.getD 1
    some (if duracion_total > 0 ∧ horas_semanales > 0
          then horas_semanales / duracion_total else 3/4)
  else none

/-- Per-day weight in `calcular_dias_mensuales`: the first block with a
recognized periodicity decides; an unrecognized day counts 1.0; a day with
an empty block list is skipped. -/
def pesoDia1242 (entradas : List EntradaJson) : ℚ :=
  if entradas.isEmpty then 0
  else
    match entradas.findSome? pesoEntrada1242 with
    | some w => w
    | none => 1

/-- `calcular_dias_mensuales` (lines 1141-1219): weighted weekly days
times 4.33, rounded half-up via `int(x + 0.5)`. -/
def calcular_dias_mensuales (l : Legajo) : ℤ :=
  let bpd := bpd_of l
  if bpd.isEmpty then 0
  else
    let dias_semanales : ℚ := (bpd.map (fun p => pesoDia1242 p.2)).sum
    pyInt (dias_semanales * (433/100) + 1/2)

/-- `cumple_condicion_sueldo_basico` (lines 1221-1255). -/
def cumple_condicion_sueldo_basico (l : Legajo) : Bool :=
  match contr_categoria l with
  | some c =>
    if c = "fc_pfc" then
      match rem_sueldo l with
      | none => false
      | some v => (pyFloat v).isSome
    else false
  | none => false

/-- The `sueldo = round(float(...get('sueldo_base', 0.0)), 2)` value of
variable 1 (line 678); only evaluated under
`cumple_condicion_sueldo_basico`, which guarantees convertibility. -/
def sueldo_base_valor (l : Legajo) : ℚ :=
  ((rem_sueldo l).bind pyFloat).getD 0

/-- Python `str.split(sep)` for a single-character separator. -/
def pySplitChar (sep : Char) : List Char → List (List Char)
  | [] => [[]]
  | c :: cs =>
    if c = sep then [] :: pySplitChar sep cs
    else
      match pySplitChar sep cs with
      | g :: gs => (c :: g) :: gs
      | [] => [[c]]

/-- Minutes-from-midnight of a `"H:MM"` string as `es_full_nocturno`
parses it (split on `:`, two parts, `int` on each). -/
def minutosInicio (s : String) : Option ℕ :=
  match (pySplitChar ':' s.data).map pyIntOfDigits with
  | [some h, some m] => some (h * 60 + m)
  | _ => none

/-- Per-day statistics of `es_full_nocturno` (lines 1292-1339). -/
def statsDiaNocturno (entradas : List EntradaJson) : ℚ × ℚ × Bool × Option ℕ :=
  let total := (entradas.map (fun e => e.duracion_total.getD 0)).sum
  let noct := (entradas.map (fun e => e.horas_nocturnas.getD 0)).sum
  let tiene := entradas.any (fun e => e.horas_nocturnas.getD 0 > 0)
  let inicios := entradas.filterMap (fun e =>
    let i := e.inicio.getD ""
    if i = "" then none else minutosInicio i)
  let masTemprana := inicios.foldl (fun acc m =>
    match acc with
    | none => some m
    | some a => some (min a m)) none
  (total, noct, tiene, masTemprana)

/-- `es_full_nocturno` (lines 1257-1375). -/
def es_full_nocturno (l : Legajo) : Bool :=
  let bpd := bpd_of l
  if bpd.isEmpty then false
  else
    let total_dias := bpd.length
    let porDia := (bpd.filter (fun p => !p.2.isEmpty)).map (fun p => statsDiaNocturno p.2)
    let dias_con_nocturnidad := (porDia.filter (fun s => s.2.2.1)).length
    let dias_con_mayoria := (porDia.filter (fun s =>
      s.1 > 0 ∧ s.2.1 / s.1 > 1/2)).length
    let dias_inicio_18 := (porDia.filter (fun s =>
      match s.2.2.2 with
      | some m => m ≥ 1080
      | none => false)).length
    let condicion_a := (dias_con_nocturnidad : ℚ) / (total_dias : ℚ) * 100 > 80
    let condicion_b := dias_con_mayoria = total_dias
    let condicion_c := dias_inicio_18 = total_dias
    condicion_a ∧ condicion_b ∧ condicion_c

/-- `obtener_horas_nocturnas` (lines 1377-1422): guards always get 0;
otherwise weekly night hours clamped into `[0,168]` times 4.33, rounded. -/
def obtener_horas_nocturnas (l : Legajo) (guardia : Bool) : ℚ :=
  if guardia then 0
  else
    let raw := (thn_of l).getD (.num 0)
    match pyFloat raw with
    | none => 0
    | some horas => round2 (max 0 (min horas 168) * (433/100))

/-- `aplicar_adicional_nocturno` (lines 1478-1528). -/
def aplicar_adicional_nocturno (l : Legajo) (horas_nocturnas : ℚ) (guardia : Bool) : Bool :=
  if guardia then false
  else if horas_nocturnas ≤ 0 then false
  else
    let categoria := (contr_categoria l).getD ""
    if categoria = "" then false
    else "dc_".data.isPrefixOf (pyLowerStr categoria).data

/-- `aplicar_lavado_uniforme` (lines 1424-1476). -/
def aplicar_lavado_uniforme (l : Legajo) : Bool :=
  match l.datos_personales with
  | none => false
  | some dp =>
    let puesto_normalizado := normalizar_textoOpt dp.puesto
    match dp.sector with
    | none => false
    | some sec =>
      let subsector_normalizado := normalizar_textoOpt sec.subsector
      puesto_normalizado = normalizar_texto "OPERARIO DE LOGISTICA" ∧
        subsector_normalizado = normalizar_texto "INTERIOR"

/-! ### `_parse_fecha_flexible` (lines 1038-1113)

Python `strptime` day/month tokens accept one or two digits with the
documented bounds; `%Y` is exactly four digits, `%y` exactly two (mapped
to 2000-2068 / 1969-1999); the constructed `datetime` must be a valid
proleptic-Gregorian date.  The `candidatos` set is iterated in literal
order (for every input the repository produces, all candidates that parse
at all parse to the same date, so the unspecified CPython set order is
immaterial). -/

def esBisiesto (y : ℕ) : Bool := y % 4 = 0 ∧ (y % 100 ≠ 0 ∨ y % 400 = 0)

def diasDelMes (m y : ℕ) : ℕ :=
  if m = 2 then (if esBisiesto y then 29 else 28)
  else if m = 4 ∨ m = 6 ∨ m = 9 ∨ m = 11 then 30
  else 31

def fechaValida (d m y : ℕ) : Bool :=
  1 ≤ y ∧ y ≤ 9999 ∧ 1 ≤ m ∧ m ≤ 12 ∧ 1 ≤ d ∧ d ≤ diasDelMes m y

/-- `%d` token: `3[01]|[12]\d|0[1-9]|[1-9]`, two-digit alternatives first
(the list records the regex backtracking order). -/
def tokDia (cs : List Char) : List (ℕ × List Char) :=
  match cs with
  | a :: b :: rest =>
    let dos :=
      if (a = '3' ∧ (b = '0' ∨ b = '1')) ∨
         ((a = '1' ∨ a = '2') ∧ isAsciiDigit b) ∨
         (a = '0' ∧ ('1' ≤ b ∧ b ≤ '9')) then
        [((a.toNat - 48) * 10 + (b.toNat - 48), rest)]
      else []
    let uno := if '1' ≤ a ∧ a ≤ '9' then [(a.toNat - 48, b :: rest)] else []
    dos ++ uno
  | [a] => if '1' ≤ a ∧ a ≤ '9' then [(a.toNat - 48, [])] else []
  | [] => []

/-- `%m` token: `1[0-2]|0[1-9]|[1-9]`. -/
def tokMes (cs : List Char) : List (ℕ × List Char) :=
  match cs with
  | a :: b :: rest =>
    let dos :=
      if (a = '1' ∧ (b = '0' ∨ b = '1' ∨ b = '2')) ∨
         (a = '0' ∧ ('1' ≤ b ∧ b ≤ '9')) then
        [((a.toNat - 48) * 10 + (b.toNat - 48), rest)]
      else []
    let uno := if '1' ≤ a ∧ a ≤ '9' then [(a.toNat - 48, b :: rest)] else []
    dos ++ uno
  | [a] => if '1' ≤ a ∧ a ≤ '9' then [(a.toNat - 48, [])] else []
  | [] => []

/-- `%Y` token: exactly four digits. -/
def tokAnio4 (cs : List Char) : List (ℕ × List Char) :=
  match cs with
  | a :: b :: c :: d :: rest =>
    if isAsciiDigit a ∧ isAsciiDigit b ∧ isAsciiDigit c ∧ isAsciiDigit d then
      [((a.toNat - 48) * 1000 + (b.toNat - 48) * 100 + (c.toNat - 48) * 10 +
        (d.toNat - 48), rest)]
    else []
  | _ => []

/-- `%y` token: exactly two digits, 00-68 → 2000s, 69-99 → 1900s. -/
def tokAnio2 (cs : List Char) : List (ℕ × List Char) :=
  match cs with
  | a :: b :: rest =>
    if isAsciiDigit a ∧ isAsciiDigit b then
      let y := (a.toNat - 48) * 10 + (b.toNat - 48)
      [(if y ≤ 68 then 2000 + y else 1900 + y, rest)]
    else []
  | _ => []

def esperaSep (sep : Char) (cs : List Char) : List (List Char) :=
  match cs with
  | c :: rest => if c = sep then [rest] else []
  | [] => []

/-- `strptime` with format `%d<sep>%m<sep>%Y|%y`, full-string match and
calendar validation. -/
def strptimeDMY (cs : List Char) (sep : Char) (anio4 : Bool) : Option (ℕ × ℕ × ℕ) :=
  (tokDia cs).findSome? fun dc =>
    (esperaSep sep dc.2).findSome? fun cs1 =>
      (tokMes cs1).findSome? fun mc =>
        (esperaSep sep mc.2).findSome? fun cs2 =>
          ((if anio4 then tokAnio4 cs2 else tokAnio2 cs2)).findSome? fun yc =>
            if yc.2 = [] ∧ fechaValida dc.1 mc.1 yc.1 then
              some (dc.1, mc.1, yc.1)
            else none

/-- `strptime` with format `%Y|%y<sep>%m<sep>%d`. -/
def strptimeYMD (cs : List Char) (sep : Char) (anio4 : Bool) : Option (ℕ × ℕ × ℕ) :=
  ((if anio4 then tokAnio4 cs else tokAnio2 cs)).findSome? fun yc =>
    (esperaSep sep yc.2).findSome? fun cs1 =>
      (tokMes cs1).findSome? fun mc =>
        (esperaSep sep mc.2).findSome? fun cs2 =>
          (tokDia cs2).findSome? fun dc =>
            if dc.2 = [] ∧ fechaValida dc.1 mc.1 yc.1 then
              some (dc.1, mc.1, yc.1)
            else none

/-- One entry of the `formatos` list: day-month-year or year-month-day,
the separator, and whether the year has four digits. -/
structure FormatoFecha where
  diaPrimero : Bool
  sep : Char
  anio4 : Bool

/-- The `formatos` list of `_parse_fecha_flexible`, in source order. -/
def formatosFecha : List FormatoFecha :=
  [⟨true, '/', true⟩, ⟨true, '/', false⟩,
   ⟨true, '-', true⟩, ⟨true, '-', false⟩,
   ⟨false, '/', true⟩, ⟨false, '/', false⟩,
   ⟨false, '-', true⟩, ⟨false, '-', false⟩,
   ⟨true, '.', true⟩, ⟨true, '.', false⟩]

/-- Candidate adaptation: the candidate's separators are rewritten to the
format's separator before `strptime` (lines 1079-1086). -/
def adaptaCand (cs : List Char) (f : FormatoFecha) : List Char :=
  if f.sep = '.' then cs.map (fun c => if c = '/' then '.' else c)
  else if f.sep = '-' then cs.map (fun c => if c = '/' then '-' else c)
  else cs.map (fun c => if c = '-' ∨ c = '.' then '/' else c)

def pruebaFormato (cs : List Char) (f : FormatoFecha) : Option (ℕ × ℕ × ℕ) :=
  let cs := adaptaCand cs f
  if f.diaPrimero then strptimeDMY cs f.sep f.anio4 else strptimeYMD cs f.sep f.anio4

/-- `re.sub(r"[^0-9]", "/", s)` then collapsing runs of `/` and stripping
them from the ends. -/
def normSepFecha (cs : List Char) : List Char :=
  let cs := cs.map (fun c => if isAsciiDigit c then c else '/')
  let cs := (collapseSpacesAux false (cs.map (fun c => if c = '/' then ' ' else c))).map
    (fun c => if c = ' ' then '/' else c)
  ((cs.dropWhile (· = '/')).reverse.dropWhile (· = '/')).reverse

/-- Auxiliary for `gruposDigitos`: `acc` holds the reversed current digit
group. -/
def gruposDigitosAux : List Char → List Char → List (List Char)
  | acc, [] => if acc = [] then [] else [acc.reverse]
  | acc, c :: cs =>
    if isAsciiDigit c then gruposDigitosAux (c :: acc) cs
    else if acc = [] then gruposDigitosAux [] cs
    else acc.reverse :: gruposDigitosAux [] cs

/-- Maximal digit groups of a string (`re.split(r"[^\d]", s)` keeping the
digit-only nonempty parts). -/
def gruposDigitos (cs : List Char) : List (List Char) := gruposDigitosAux [] cs

/-- `_parse_fecha_flexible` for string inputs (the only ones
`obtener_fecha_fin_contrato` passes): candidates then formats, then the
three-digit-group heuristic. -/
def parse_fecha_flexible (s : String) : Option (ℕ × ℕ × ℕ) :=
  let cs := pyStrip s.data
  if cs = [] then none
  else
    let sn := normSepFecha cs
    let cands0 := [cs, sn,
      sn.map (fun c => if c = '/' then '-' else c),
      sn.map (fun c => if c = '/' then '.' else c)]
    let cands := cands0.foldl (fun acc c => if acc.contains c then acc else acc ++ [c]) []
    match cands.findSome? (fun cand => formatosFecha.findSome? (pruebaFormato cand)) with
    | some d => some d
    | none =>
      let partes := gruposDigitos cs
      match partes with
      | [d, m, a] =>
        let dma := d ++ '/' :: m ++ '/' :: a
        let amd := a ++ '/' :: m ++ '/' :: d
        match strptimeDMY dma '/' true with
        | some r => some r
        | none =>
          match strptimeDMY dma '/' false with
          | some r => some r
          | none =>
            match strptimeYMD amd '/' true with
            | some r => some r
            | none => strptimeYMD amd '/' false
      | _ => none

/-- Left-pad a number with zeros (`strftime` zero padding). -/
def padNum (width n : ℕ) : String :=
  let s := toString n
  String.mk (List.replicate (width - s.length) '0') ++ s

/-- `strftime("%d/%m/%Y")`. -/
def formatoDDMMYYYY (d m y : ℕ) : String :=
  padNum 2 d ++ "/" ++ padNum 2 m ++ "/" ++ padNum 4 y

/-- `obtener_fecha_fin_contrato` (lines 1530-1584). -/
def obtener_fecha_fin_contrato (l : Legajo) : Option String :=
  let tipo_contrato := pyLowerStr ((contr_tipo l).getD "")
  if !(strContains tipo_contrato "plazo_fijo" || strContains tipo_contrato "determinado") then
    none
  else
    match contr_fecha_fin l with
    | none => none
    | some s =>
      if s = "" then none
      else
        match parse_fecha_flexible s with
        | none => none
        | some r => some (formatoDDMMYYYY r.1 r.2.1 r.2.2)

/-- `aplicar_no_liquida_plus` (lines 1586-1637). -/
def aplicar_no_liquida_plus (l : Legajo) (guardia : Bool) : Bool :=
  if !guardia then false
  else if l.id_legajo ≤ 15000 then false
  else
    match dp_sede l with
    | none => false
    | some s =>
      if s = "" then false
      else SEDES_NO_LIQUIDA_PLUS.contains (normalizar_texto s)

/-- `es_cajero` (lines 1639-1699). -/
def es_cajero (l : Legajo) : Bool :=
  match dp_puesto l with
  | none => false
  | some puesto_raw =>
    if puesto_raw = "" then false
    else
      let puesto_upper := pyUpperStr (normalizar_texto puesto_raw)
      if !(strContains puesto_upper "CAJERO" || strContains puesto_upper "CAJERO/A") then
        false
      else
        match contr_categoria l with
        | none => false
        | some categoria_raw =>
          if categoria_raw = "" then false
          else
            let categoria := normalizar_texto categoria_raw
            strContains categoria "adm" || strContains categoria "administrativo"

/-- `re.sub(r'\s+\bde\b\s+', ' ', s)` of `es_puesto_especial`: the word
boundaries are implied by the surrounding whitespace. -/
def subDeAux : ℕ → List Char → List Char
  | _, [] => []
  | 0, cs => cs
  | fuel + 1, c :: cs =>
    if isPySpace c then
      match (c :: cs).dropWhile isPySpace with
      | 'd' :: 'e' :: rest2 =>
        if rest2.takeWhile isPySpace ≠ [] then
          ' ' :: subDeAux fuel (rest2.dropWhile isPySpace)
        else c :: subDeAux fuel cs
      | _ => c :: subDeAux fuel cs
    else c :: subDeAux fuel cs

def subDe (cs : List Char) : List Char := subDeAux cs.length cs

/-- The cleaning step shared by both sides of `es_puesto_especial`
(lines 1019-1036): drop ` de `, strip, lower, delete anything outside
`[a-z0-9 ]`. -/
def limpiaPuesto (s : String) : String :=
  String.mk (((pyStrip (subDe s.data)).map pyLowerChar).filter
    (fun c => isLowerAlpha c || isAsciiDigit c || c = ' '))

/-- `es_puesto_especial` (lines 1019-1036). -/
def es_puesto_especial (puesto_normalizado : String) : Bool :=
  let puesto_limpio := limpiaPuesto puesto_normalizado
  puestosEspecialesValues.any (fun pe =>
    let especial_limpio := limpiaPuesto pe
    puesto_limpio = especial_limpio ||
      (especial_limpio ++ " ").data.isPrefixOf puesto_limpio.data ||
      (puesto_limpio ++ " ").data.isPrefixOf especial_limpio.data)

/-- `es_medico_productividad` (lines 1815-1871). -/
def es_medico_productividad (l : Legajo) : Bool :=
  match dp_puesto l with
  | none => false
  | some puesto_raw =>
    if normalizar_texto puesto_raw ≠ pe_MEDICO then false
    else
      match dp_sector_principal l with
      | none => false
      | some sector_raw => SECTORES_MEDICOS.contains (normalizar_texto sector_raw)

/-- `es_licenciado_bioimagenes` (lines 1873-1957). -/
def es_licenciado_bioimagenes (l : Legajo) : Bool :=
  match dp_puesto l with
  | none => false
  | some puesto_raw =>
    if !(bioimagenesPuestosValidos.contains (normalizar_texto puesto_raw)) then false
    else
      match dp_sector l with
      | none => false
      | some sec =>
        match sec.principal with
        | none => false
        | some sp =>
          if !(SECTORES_ESPECIALES_HORAS_156.contains (normalizar_texto sp)) then false
          else
            let adicionables := normalizar_textoOpt (rem_adicionables l)
            bioimagenesTerminosAdicionales.any (fun t => strContains adicionables t)

/-- Result values of the engine: numbers or informational strings. -/
inductive VarVal where
  | num (q : ℚ)
  | str (s : String)
deriving DecidableEq

/-- One emitted `(variable code, value)` pair. -/
abbrev VarRes := ℤ × VarVal

/-- `procesar_variables_informativas` (lines 1701-1813); returns the
entries it appends, in order. -/
def procesar_variables_informativas (l : Legajo) : List VarRes :=
  let adicionables_raw := (rem_adicionables l).getD ""
  let adicionables_normalizado :=
    if adicionables_raw = "" then "" else normalizar_texto adicionables_raw
  let adicionables_para_intang :=
    pyReplace (pyReplace (pyReplace (pyReplace adicionables_normalizado
      "intang" "intangibilidad") "intang." "intangibilidad")
      "intan" "intangibilidad") "intangib" "intangibilidad"
  let sueldo_base := rem_sueldo l
  let categoria := pyLowerStr (String.mk (pyStrip ((contr_categoria l).getD "").data))
  let s7000 : List VarRes :=
    if TERMINOS_CESION.any (fun t => strContains adicionables_normalizado t) then
      [(7000, .str "Es cesión, revisar.")] else []
  let s8000 : List VarRes :=
    if strContains adicionables_para_intang "intangibilidad" then
      [(8000, .str "Revisar Importe o % para Intangibilidad Salarial")] else []
  let s9000 : List VarRes :=
    if ["adic voluntario", "adicional voluntario", "voluntario empresa"].any
        (fun t => strContains adicionables_normalizado t) then
      [(9000, .str "Revisar Adic Voluntario Empresa")] else []
  let s10000 : List VarRes :=
    if es_licenciado_bioimagenes l then
      [(10000, .str "Cargar Título en CP, es Licenciado")] else []
  let s11000 : List VarRes :=
    if strContains adicionables_normalizado "ppr" ∧ sueldo_base.isSome then
      [(11000, .str "Tiene PPR. Revisar archivo")] else []
  let s12000 : List VarRes :=
    if categoria = "fc_pfc" then
      let sueldo_base_falta := sueldo_base = none ∨ sueldo_base = some (.other "")
      let tiene_full_guardia := strContains adicionables_normalizado "full guardia"
      if sueldo_base_falta ∧ ¬tiene_full_guardia then
        [(12000, .str "Falta sueldo bruto pactado. Revisar Var 1")] else []
    else []
  let s13000 : List VarRes :=
    if strContains adicionables_normalizado "full guardia" ∧
        (["capacitacion", "capa"].any (fun t => strContains adicionables_normalizado t)) then
      [(13000, .str "Revisar Pago de Guardias de Capacitación")] else []
  s7000 ++ s8000 ++ s9000 ++ s10000 ++ s11000 ++ s12000 ++ s13000

def puestosLabPiso27 : List String :=
  [normalizar_texto "AUXILIAR TECNICO", normalizar_texto "TECNICO DE LABORATORIO",
   normalizar_texto "TECNICO EXTRACCIONISTA", normalizar_texto "BIOQUIMICO"]

def sectoresLaboratorio : List String :=
  [normalizar_texto "LABORATORIO", normalizar_texto "ATENCION AL CLIENTE LABORATORIO",
   normalizar_texto "LABORATORIO CLINICO", normalizar_texto "ANALISIS CLINICOS"]

/-- `calcular_horas_mensuales` (lines 1959-2071). -/
def calcular_horas_mensuales (l : Legajo) (v239 : ℚ) : ℚ :=
  let puesto := normalizar_textoOpt (dp_puesto l)
  let sector := normalizar_textoOpt (dp_sector_principal l)
  if (sector = "cuat" ∧ puesto = pe_TELEFONISTA ∧ v239 = 35) ∨
     (puesto = pe_RECEP_LAB ∧ v239 = 35) ∨
     (puesto = pe_TEC_CARDIO ∧ v239 ≥ 35) ∨
     (puesto = pe_OP_LOGISTICA ∧ v239 ≥ 35) ∨
     (sector = "atencion al cliente laboratorio" ∧ puesto = "recepcionista" ∧ v239 ≥ 35) ∨
     (puesto = normalizar_texto "asistente tecnico" ∧ v239 = 35) then 200
  else if puestosLabPiso27.contains puesto ∧ 27 ≤ v239 ∧ v239 ≤ 36 then 156
  else if puestosLabPiso27.contains puesto ∧ v239 < 27 then round2 (27 * (433/100))
  else if (puesto = normalizar_texto "TECNICO" ∨ puesto = normalizar_texto "TECNICO PIVOT") ∧
      sector ≠ SECTOR_EXCLUIDO_LABORATORIO ∧ 18 ≤ v239 ∧ v239 ≤ 36 then 156
  else if valores_profesionales_para_comparacion.contains puesto then
    round2 (v239 * (433/100))
  else
    let sector_normalizado := normalizar_texto sector
    let puesto_normalizado := normalizar_texto puesto
    let piso : ℚ :=
      if sectoresLaboratorio.contains sector_normalizado ∧
          puestosLabPiso27.contains puesto_normalizado then 27
      else if SECTORES_IMAGENES.contains sector_normalizado ∧
          bioimagenesPuestosValidos.contains puesto_normalizado then 18
      else 36
    if v239 < piso then round2 (piso * (433/100))
    else 200

/-- Floor-selection chain of `calcular_jornada_reducida` (lines 2145-2163). -/
def pisoJornadaReducida (sector puesto : String) : ℚ :=
  if sectoresLaboratorio.contains sector ∧ puestosLabPiso27.contains puesto then 27
  else if sector = normalizar_texto "medicina nuclear" ∧
      puesto = normalizar_texto "asistente tecnico" then 36
  else if SECTORES_IMAGENES.contains sector then 18
  else if sectoresLaboratorio.contains sector then 27
  else 36

/-- `calcular_jornada_reducida` (lines 2073-2179).  When
`total_horas_semanales` is a non-number the final `total_horas < piso`
comparison raises a `TypeError` that the handler turns into `None`. -/
def calcular_jornada_reducida (l : Legajo) (guardia : Bool) : Option ℚ :=
  let puesto := normalizar_textoOpt (dp_puesto l)
  let sector := normalizar_textoOpt (dp_sector_principal l)
  let categoria := (contr_categoria l).getD ""
  let cat_clave := pyReplace (pyLowerStr categoria) " " "_"
  if cat_clave = "pfc" ∨ cat_clave = "fc_pfc" then none
  else if guardia then none
  else if puesto = "" then none
  else if sector = "" then none
  else
    match (ths_of l).getD (.num 0) with
    | .other _ => none
    | .num total_horas =>
      if es_puesto_especial puesto ∧ total_horas = 35 then none
      else if puesto = normalizar_texto "asistente tecnico" ∧ total_horas = 35 then none
      else
        let dias_trabajo := dias_trabajo_of l
        if total_horas = 18 ∧ DIAS_ESPECIALES.all (fun d => dias_trabajo.contains d) then
          some (round4 (total_horas / 45 * 100))
        else
          let piso := pisoJornadaReducida sector puesto
          if total_horas < piso then some (round4 (total_horas / piso * 100))
          else none

/-- `calcular_jornada_art19` (lines 2181-2266). -/
def calcular_jornada_art19 (l : Legajo) (horas_semanales : ℚ) : Option ℤ :=
  let categoria := normalizar_textoOpt (contr_categoria l)
  let categoria_pre := normalizar_texto art19CategoriaPrefijo
  if !(strContains categoria categoria_pre) then none
  else
    let puesto := normalizar_textoOpt (dp_puesto l)
    if !(art19PuestosValidos.contains puesto) then none
    else
      let sector := normalizar_textoOpt (dp_sector_principal l)
      if sector ≠ art19SectorValido then none
      else if horas_semanales > 36 then some 1
      else none

/-- `calcular_porcentaje_art19` (lines 2268-2381); the maximum percentage
`CONSTANTES['PORCENTAJE_MAX_ART19']` is 33. -/
def calcular_porcentaje_art19 (l : Legajo) (v239 : ℚ) : Option ℚ :=
  match dp_puesto l with
  | none => none
  | some puesto_raw =>
    let puesto := normalizar_texto puesto_raw
    match contr_categoria l with
    | none => none
    | some categoria_raw =>
      let categoria := pyLowerStr categoria_raw
      match dp_sector l with
      | none => none
      | some sec =>
        match sec.principal with
        | none => none
        | some sector_raw =>
          let sector_principal := normalizar_texto sector_raw
          if !(strContains categoria "dc_") then none
          else if !(art19PuestosValidos.contains puesto) then none
          else if sector_principal ≠ art19SectorValido then none
          else if !(36 < v239 ∧ v239 ≤ 48) then none
          else some (round4 (if v239 = 48 then 33 else 33 * (v239 / 48)))

/-- `calcular_extension_horaria` (lines 2384-2471). -/
def calcular_extension_horaria (l : Legajo) (v239 : ℚ) : Option ℚ :=
  if l.id_legajo > 3999 then none
  else
    match dp_puesto l with
    | none => none
    | some puesto_raw =>
      if !(extensionPuestosValidos.contains (normalizar_texto puesto_raw)) then none
      else
        match dp_sector_principal l with
        | none => none
        | some sector_raw =>
          let sector_normalizado := normalizar_texto sector_raw
          if !(SECTORES_IMAGENES.contains sector_normalizado) then none
          else if sector_normalizado = SECTOR_EXCLUIDO_LABORATORIO then none
          else if v239 ≤ 24 then none
          else some (round2 v239)

/-- Fractional digits of a terminating decimal, most significant first. -/
def fracDigitsAux : ℕ → ℚ → List Char
  | 0, _ => []
  | fuel + 1, r =>
    if r = 0 then []
    else
      let r10 := r * 10
      let d := (⌊r10⌋).toNat
      Char.ofNat (48 + d) :: fracDigitsAux fuel (r10 - (⌊r10⌋ : ℚ))

/-- Python `str(float)` for the terminating decimals the engine formats
(every value reaching it is a 2-decimal rounding). -/
def pyFloatRepr (q : ℚ) : String :=
  let signo := if q < 0 then "-" else ""
  let a := |q|
  let ip := (⌊a⌋).toNat
  let ds := fracDigitsAux 17 (a - (⌊a⌋ : ℚ))
  signo ++ toString ip ++ "." ++ (if ds = [] then "0" else String.mk ds)

/-- `TABLA_RESONANCIA` (lines 2499-2509). -/
def tablaResonancia : List (ℚ × ℤ) :=
  [(12, 1), (24, 2), (30, 3), (34, 4), (35, 5), (36, 6), (40, 7), (45, 8), (65/2, 9)]

/-- `calcular_adicional_resonancia` (lines 2473-2550). -/
def calcular_adicional_resonancia (l : Legajo) (v239 : ℚ) : Option VarVal :=
  match dp_puesto l with
  | none => none
  | some puesto_raw =>
    if !(bioimagenesPuestosValidos.contains (normalizar_texto puesto_raw)) then none
    else
      match dp_sector_principal l with
      | none => none
      | some sector_raw =>
        if normalizar_texto sector_raw ≠ normalizar_texto "resonancia magnetica" then none
        else
          match tablaResonancia.find? (fun e => e.1 = v239) with
          | some e => some (.num (e.2 : ℚ))
          | none =>
            some (.str ("No existe equivalencia de Adic Resonancia para esas hs semanales ("
              ++ pyFloatRepr v239 ++ "hs)"))

/-- Equality of two integer lists as Python sets. -/
def listSetEq (xs ys : List ℤ) : Bool :=
  xs.all (fun x => ys.contains x) && ys.all (fun y => xs.contains y)

/-- `calcular_dias_especiales` (lines 2552-2620). -/
def calcular_dias_especiales (l : Legajo) (v1242 : ℤ) : Option ℤ :=
  let puesto := normalizar_textoOpt (dp_puesto l)
  let dias_semana := dias_trabajo_of l
  if listSetEq dias_semana [5, 6, 7] then some 10
  else if listSetEq dias_semana [0, 1, 2] then some 10
  else if v1242 < 22 ∨ valores_profesionales_para_comparacion.contains puesto ∨
      dias_semana.contains 7 then some v1242
  else none

/-- `aplicar_proporcion_lavado` (lines 2622-2709). -/
def aplicar_proporcion_lavado (l : Legajo) : Bool :=
  match l.datos_personales with
  | none => false
  | some dp =>
    if normalizar_textoOpt dp.puesto ≠ normalizar_texto "OPERARIO DE LOGISTICA" then false
    else
      match dp.sector with
      | none => false
      | some sec =>
        if normalizar_textoOpt sec.subsector ≠ normalizar_texto "INTERIOR" then false
        else
          match ths_of l with
          | none => false
          | some v =>
            match pyFloat v with
            | none => false
            | some total_horas_semanales => total_horas_semanales < 35

/-- The body of `calcular_variables` (lines 629-879), i.e. everything
inside its `try`; the only raising point of the model is
`validar_horario`'s direct `legajo['horario']` access. -/
def calcVarsBody (l : Legajo) : Except PyErr (List VarRes) := do
  let ok ← validar_horario l
  if !ok then
    pure [(9000, .str "No se pudo interpretar correctamente el horario")]
  else
    let v239 := obtener_horas_semanales l
    let v1242 := calcular_dias_mensuales l
    let es_guardia_actual := es_guardia l
    let s239 : List VarRes := [(239, .num (round2 v239)), (1242, .num (v1242 : ℚ))]
    let s1 : List VarRes :=
      if cumple_condicion_sueldo_basico l then
        [(1, .num (round2 (sueldo_base_valor l)))] else []
    let s2000 : List VarRes := if es_guardia_actual then [(2000, .num 1)] else []
    let s4 : List VarRes := [(4, .num (round2 (calcular_horas_mensuales l v239)))]
    let v1157 := obtener_horas_nocturnas l es_guardia_actual
    let full_nocturno := if v1157 > 0 then es_full_nocturno l else false
    let s1498 : List VarRes :=
      if aplicar_adicional_nocturno l v1157 es_guardia_actual then [(1498, .num 1)] else []
    let sNoct : List VarRes :=
      if v1157 = 0 then []
      else if full_nocturno then s1498
      else [(1157, .num (round2 v1157))] ++ s1498
    let s992 : List VarRes :=
      match calcular_extension_horaria l v239 with
      | some v => [(992, .num (round2 v))]
      | none => []
    let s1151 : List VarRes :=
      match calcular_adicional_resonancia l v239 with
      | some v => [(1151, v)]
      | none => []
    let s1131 : List VarRes :=
      match calcular_dias_especiales l v1242 with
      | some v => [(1131, .num (v : ℚ))]
      | none => []
    let s1137 : List VarRes := if aplicar_lavado_uniforme l then [(1137, .num 1)] else []
    let s1167 : List VarRes :=
      match calcular_jornada_reducida l es_guardia_actual with
      | some v => [(1167, .num v)]
      | none => []
    let s1416 : List VarRes :=
      match calcular_jornada_art19 l v239 with
      | some v => [(1416, .num (v : ℚ))]
      | none => []
    let s1599 : List VarRes :=
      match calcular_porcentaje_art19 l v239 with
      | some v => [(1599, .num (round4 v))]
      | none => []
    let s1673 : List VarRes := if aplicar_proporcion_lavado l then [(1673, .num 1)] else []
    let s2006 : List VarRes :=
      match obtener_fecha_fin_contrato l with
      | some fecha => [(2006, .str fecha)]
      | none => []
    let s2281 : List VarRes :=
      if aplicar_no_liquida_plus l es_guardia_actual then [(2281, .num 1)] else []
    let s426 : List VarRes := if es_cajero l then [(426, .num 1)] else []
    let sInfo := procesar_variables_informativas l
    let sMedico : List VarRes :=
      if es_medico_productividad l then
        [(1740, .num 1), (1251, .num 1), (1252, .num 1)] else []
    pure (s239 ++ s1 ++ s2000 ++ s4 ++ sNoct ++ s992 ++ s1151 ++ s1131 ++ s1137 ++
      s1167 ++ s1416 ++ s1599 ++ s1673 ++ s2006 ++ s2281 ++ s426 ++ sInfo ++ sMedico)

/-- `calcular_variables` (lines 629-884): the catch-all handler turns any
escaped exception into an empty result list. -/
def calcular_variables (l : Legajo) : List VarRes :=
  match calcVarsBody l with
  | .ok vs => vs
  | .error _ => []

/-! ### Schedule blocks and the weekly summarizer (excel_a_json.py)

`ScheduleBlock` is a block as `parse_schedule_string` emits it: every key
present.  Times are the `HH:MM` strings of the block; the summarizer
re-parses them with `strptime('%H:%M')`, which rejects hours ≥ 24 or
minutes ≥ 60 (such a block is skipped by its `except: continue`). -/

structure Periodicidad where
  tipo : String
  factor : ℚ
deriving DecidableEq

structure ScheduleBlock where
  id : String
  dias_semana : List ℕ
  hora_inicio : String
  hora_fin : String
  periodicidad : Periodicidad
  original_text_segment : String
  cruza_dia : Bool
deriving DecidableEq

/-- `%H` token of `strptime`: `2[0-3]|[01]\d|\d`, in that order. -/
def tokHora (cs : List Char) : List (ℕ × List Char) :=
  match cs with
  | a :: b :: rest =>
    let dos :=
      if (a = '2' ∧ ('0' ≤ b ∧ b ≤ '3')) ∨ ((a = '0' ∨ a = '1') ∧ isAsciiDigit b) then
        [((a.toNat - 48) * 10 + (b.toNat - 48), rest)]
      else []
    let uno := if isAsciiDigit a then [(a.toNat - 48, b :: rest)] else []
    dos ++ uno
  | [a] => if isAsciiDigit a then [(a.toNat - 48, [])] else []
  | [] => []

/-- `%M` token of `strptime`: `[0-5]\d|\d`. -/
def tokMinuto (cs : List Char) : List (ℕ × List Char) :=
  match cs with
  | a :: b :: rest =>
    let dos :=
      if ('0' ≤ a ∧ a ≤ '5') ∧ isAsciiDigit b then
        [((a.toNat - 48) * 10 + (b.toNat - 48), rest)]
      else []
    let uno := if isAsciiDigit a then [(a.toNat - 48, b :: rest)] else []
    dos ++ uno
  | [a] => if isAsciiDigit a then [(a.toNat - 48, [])] else []
  | [] => []

/-- `datetime.strptime(s, '%H:%M').time()`: hour and minute, full match. -/
def parseHHMM (s : String) : Option (ℕ × ℕ) :=
  (tokHora s.data).findSome? fun hc =>
    (esperaSep ':' hc.2).findSome? fun cs1 =>
      (tokMinuto cs1).findSome? fun mc =>
        if mc.2 = [] then some (hc.1, mc.1) else none

/-- Block duration (lines 713-717). -/
def duracionBloque (hi hf : ℕ × ℕ) (cruza_dia : Bool) : ℚ :=
  if cruza_dia then
    (24 - (hi.1 : ℚ) - (hi.2 : ℚ) / 60) + ((hf.1 : ℚ) + (hf.2 : ℚ) / 60)
  else
    ((hf.1 : ℚ) + (hf.2 : ℚ) / 60) - ((hi.1 : ℚ) + (hi.2 : ℚ) / 60)

/-- Nocturnal hours of a block (lines 719-732): overlap of
`[inicio, fin(+24h)]` with the window `[22:00, 06:00+24h]` on the same-day
axis, 0 when empty. -/
def horasNoctBloque (hi hf : ℕ × ℕ) (cruza_dia : Bool) : ℚ :=
  let inicio := (hi.1 : ℚ) + (hi.2 : ℚ) / 60
  let fin := (hf.1 : ℚ) + (hf.2 : ℚ) / 60 + (if cruza_dia then 24 else 0)
  let overlap_start := max inicio 22
  let overlap_end := min fin 30
  if overlap_start < overlap_end then overlap_end - overlap_start else 0

/-- One per-day entry as the summarizer records it (lines 745-752). -/
structure EntradaResumen where
  inicio : String
  fin : String
  duracion_total : ℚ
  horas_nocturnas : ℚ
  periodicidad : String
  horas_semanales : ℚ
deriving DecidableEq

/-- The summary dictionary (lines 764-781). -/
structure ResumenHorario where
  total_horas_semanales : ℚ
  total_horas_nocturnas : ℚ
  dias_trabajo : List ℕ
  tiene_nocturnidad : Bool
  detalle_por_dia : List (ℕ × ℚ)
  tiene_fin_semana : Bool
  bloques_por_dia : List (ℕ × List EntradaResumen)
deriving DecidableEq

/-- Insert into a sorted duplicate-free list of days. -/
def insSorted (d : ℕ) : List ℕ → List ℕ
  | [] => [d]
  | x :: xs =>
    if d < x then d :: x :: xs
    else if d = x then x :: xs
    else x :: insSorted d xs

/-- A Python `set` of small non-negative ints, as sorted(set) and as the
iteration order (CPython iterates small-int sets in increasing order). -/
def dedupSortNat (l : List ℕ) : List ℕ := l.foldl (fun acc d => insSorted d acc) []

/-- Accumulator of `calcular_resumen_horario`'s block loop;
`bloques_por_dia` has one slot per day 0-7 (`{i: [] for i in range(8)}`). -/
structure EstadoResumen where
  total_horas : ℚ
  total_horas_nocturnas : ℚ
  dias_trabajo : List ℕ
  tiene_nocturnidad : Bool
  bloques_por_dia : List (List EntradaResumen)
deriving DecidableEq

def estadoInicial : EstadoResumen := ⟨0, 0, [], false, List.replicate 8 []⟩

/-- Python set-add on the accumulated `dias_trabajo`. -/
def insDia (ds : List ℕ) (d : ℕ) : List ℕ := if ds.contains d then ds else ds ++ [d]

/-- The per-day loop of one block (lines 743-752): each day is added to
`dias_trabajo` and then the entry is appended to `bloques_por_dia[dia]`;
a day outside 0-7 raises `KeyError` there, aborting the block (its totals
on lines 755-756 are then skipped).  The returned flag is `true` when the
loop completed. -/
def diasLoop (entrada : EntradaResumen) :
    List ℕ → List ℕ → List (List EntradaResumen) →
    List ℕ × List (List EntradaResumen) × Bool
  | [], dt, bpd => (dt, bpd, true)
  | d :: rest, dt, bpd =>
    let dt := insDia dt d
    if d < 8 then
      diasLoop entrada rest dt (bpd.set d (bpd.getD d [] ++ [entrada]))
    else (dt, bpd, false)

/-- Processing of one block inside the `try` of `calcular_resumen_horario`
(lines 707-759); a time `strptime` rejects aborts the block before any
mutation. -/
def procesaBloque (st : EstadoResumen) (b : ScheduleBlock) : EstadoResumen :=
  match parseHHMM b.hora_inicio, parseHHMM b.hora_fin with
  | some h_inicio, some h_fin =>
    let cruza_dia := b.cruza_dia
    let duracion_total := duracionBloque h_inicio h_fin cruza_dia
    let horas_noct := horasNoctBloque h_inicio h_fin cruza_dia
    let tiene := st.tiene_nocturnidad || horas_noct > 0
    let factor := b.periodicidad.factor
    let dias := dedupSortNat b.dias_semana
    let cantidad_dias := dias.length
    let entrada : EntradaResumen :=
      ⟨b.hora_inicio, b.hora_fin, round2 duracion_total, round2 horas_noct,
       b.periodicidad.tipo, round2 (duracion_total * factor)⟩
    match diasLoop entrada dias st.dias_trabajo st.bloques_por_dia with
    | (dt, bpd, true) =>
      ⟨st.total_horas + duracion_total * cantidad_dias * factor,
       st.total_horas_nocturnas + horas_noct * cantidad_dias * factor,
       dt, tiene, bpd⟩
    | (dt, bpd, false) =>
      ⟨st.total_horas, st.total_horas_nocturnas, dt, tiene, bpd⟩
  | _, _ => st

/-- `calcular_resumen_horario` (lines 695-785) without the optional
`nombre_sede` argument (the pipeline call site passes none). -/
def calcular_resumen_horario (bloques : List ScheduleBlock) : ResumenHorario :=
  let st := bloques.foldl procesaBloque estadoInicial
  let diasSorted := dedupSortNat st.dias_trabajo
  let noVacio := fun (d : ℕ) => !(st.bloques_por_dia.getD d []).isEmpty
  { total_horas_semanales := round2 st.total_horas
    total_horas_nocturnas := round2 st.total_horas_nocturnas
    dias_trabajo := diasSorted
    tiene_nocturnidad := st.tiene_nocturnidad
    detalle_por_dia := diasSorted.filterMap (fun d =>
      if noVacio d then
        some (d, round2 (((st.bloques_por_dia.getD d []).map
          (fun e => e.horas_nocturnas)).sum))
      else none)
    tiene_fin_semana := st.dias_trabajo.any (fun d => d = 5 ∨ d = 6)
    bloques_por_dia := diasSorted.filterMap (fun d =>
      if noVacio d then some (d, st.bloques_por_dia.getD d []) else none) }

/-! ### Text normalizer (excel_a_json.py, lines 36-263)

Every `re.sub` of the normalizer is implemented as a dedicated scanner
with the same leftmost, greedy and backtracking behaviour; matching is
case-insensitive where the source passes `re.IGNORECASE`; scanning always
resumes right after the matched span of the original text. -/

/-- Case-insensitive literal prefix test (pattern given in lower case). -/
def ciPre : List Char → List Char → Bool
  | [], _ => true
  | _ :: _, [] => false
  | p :: ps, c :: cs => pyLowerChar c = p && ciPre ps cs

/-- Word boundary between two optional characters (absent = non-word). -/
def boundaryAt (before after : Option Char) : Bool :=
  (match before with
   | some c => isWordChar c
   | none => false) ≠
  (match after with
   | some c => isWordChar c
   | none => false)

/-- Scanner for `re.sub(r'\s*(?:hs|hrs)\b', '', _)` of
`clean_and_standardize`. -/
def quitaHsAux : ℕ → List Char → List Char
  | _, [] => []
  | 0, cs => cs
  | fuel + 1, c :: cs =>
    let rest := (c :: cs).dropWhile isPySpace
    let alt : Option (List Char) :=
      (if ciPre "hs".data rest then
        let r := rest.drop 2
        if boundaryAt (some 's') r.head? then some r else none
      else none).orElse fun _ =>
        if ciPre "hrs".data rest then
          let r := rest.drop 3
          if boundaryAt (some 's') r.head? then some r else none
        else none
    match alt with
    | some r => quitaHsAux fuel r
    | none => c :: quitaHsAux fuel cs

def quitaHs (cs : List Char) : List Char := quitaHsAux cs.length cs

/-- `clean_and_standardize` (lines 196-203). -/
def clean_and_standardize (s : String) : String :=
  let cs := pyStrip (pyLower s.data)
  let cs := quitaHs cs
  let cs := cs.flatMap (fun c => if c = ',' then [' ', 'y', ' '] else [c])
  String.mk (pyStrip (collapseSpaces cs))

/-- Tail after the `h?s?\b` part of `limpiar_prefijos_horas` when the
previous consumed character is a word character. -/
def finPalabra (r : List Char) : Option (List Char) :=
  match r.head? with
  | none => some []
  | some x => if isWordChar x then none else some (r.dropWhile isPySpace)

/-- `limpiar_prefijos_horas` (lines 205-207):
`re.sub(r'^\s*\d+\s*h?s?\b\s*', '', text)`, anchored; the `h?s?`
alternatives are tried greedily (`hs`, `h`, `s`, empty). -/
def limpiar_prefijos_horas (s : String) : String :=
  let cs := s.data
  let rest0 := cs.dropWhile isPySpace
  let ds := rest0.takeWhile isAsciiDigit
  if ds = [] then s
  else
    let rest1 := rest0.dropWhile isAsciiDigit
    let sp1Vacio := rest1.takeWhile isPySpace = []
    let rest2 := rest1.dropWhile isPySpace
    let intento : Option (List Char) :=
      (match rest2 with
       | a :: b :: r =>
         if pyLowerChar a = 'h' ∧ pyLowerChar b = 's' then finPalabra r else none
       | _ => none).orElse fun _ =>
      (match rest2 with
       | a :: r => if pyLowerChar a = 'h' then finPalabra r else none
       | _ => none).orElse fun _ =>
      (match rest2 with
       | a :: r => if pyLowerChar a = 's' then finPalabra r else none
       | _ => none).orElse fun _ =>
      (if sp1Vacio then finPalabra rest2
       else
         match rest2.head? with
         | none => none
         | some x => if isWordChar x then some (rest2.dropWhile isPySpace) else none)
    match intento with
    | some r => String.mk r
    | none => s

/-- Scanner for the protection steps
`re.sub(r'\bx\s+medio\b', PLACEHOLDER, _)` and
`re.sub(r'\bpor\s+medio\b', PLACEHOLDER, _)` (lines 224-225). -/
def subProtectAux (word ph : List Char) : Option Char → ℕ → List Char → List Char
  | _, _, [] => []
  | _, 0, cs => cs
  | prev, fuel + 1, c :: cs =>
    let m : Option (List Char) :=
      if ((match prev with
          | some p => !isWordChar p
          | none => true) && ciPre word (c :: cs)) then
        let r1 := (c :: cs).drop word.length
        if r1.takeWhile isPySpace = [] then none
        else
          let r2 := r1.dropWhile isPySpace
          if ciPre "medio".data r2 then
            let r3 := r2.drop 5
            if boundaryAt (some 'o') r3.head? then some r3 else none
          else none
      else none
    match m with
    | some r => ph ++ subProtectAux word ph (some 'o') fuel r
    | none => c :: subProtectAux word ph (some c) fuel cs

def subProtect (word ph : String) (cs : List Char) : List Char :=
  subProtectAux word.data ph.data none cs.length cs

/-- Matcher for `\b(?:l\s*[\.\-]?\s*a\s*[\.\-]?\s*v)\b` after the leading
boundary has been checked; returns the tail after the match. -/
def lavMatch (cs : List Char) : Option (List Char) :=
  match cs with
  | c :: r0 =>
    if pyLowerChar c ≠ 'l' then none
    else
      let r1 := r0.dropWhile isPySpace
      let r1 := match r1 with
        | x :: t => if x = '.' ∨ x = '-' then t else r1
        | [] => r1
      let r1 := r1.dropWhile isPySpace
      match r1 with
      | a :: r2 =>
        if pyLowerChar a ≠ 'a' then none
        else
          let r3 := r2.dropWhile isPySpace
          let r3 := match r3 with
            | x :: t => if x = '.' ∨ x = '-' then t else r3
            | [] => r3
          let r3 := r3.dropWhile isPySpace
          match r3 with
          | v :: r4 =>
            if pyLowerChar v ≠ 'v' then none
            else if boundaryAt (some 'v') r4.head? then some r4
            else none
          | [] => none
      | [] => none
  | [] => none

/-- Scanner for the `l a v` flexibilization (lines 228-233). -/
def subLavAux : Option Char → ℕ → List Char → List Char
  | _, _, [] => []
  | _, 0, cs => cs
  | prev, fuel + 1, c :: cs =>
    let m : Option (List Char) :=
      if (match prev with
          | some p => !isWordChar p
          | none => true) then lavMatch (c :: cs)
      else none
    match m with
    | some r => "lunes-viernes".data ++ subLavAux (some 'v') fuel r
    | none => c :: subLavAux (some c) fuel cs

def subLav (cs : List Char) : List Char := subLavAux none cs.length cs

def diasAlMes : List String :=
  ["lunes", "martes", "miércoles", "miercoles", "jueves", "viernes",
   "sábado", "sabado", "domingo"]

/-- Matcher for `(\d+)\s*(<día>)\s+al\s+mes` (lines 236-241); returns the
captured day text and the tail. -/
def alMesMatch (cs : List Char) : Option (List Char × List Char) :=
  let ds := cs.takeWhile isAsciiDigit
  if ds = [] then none
  else
    let r1 := (cs.dropWhile isAsciiDigit).dropWhile isPySpace
    diasAlMes.findSome? fun alt =>
      if ciPre alt.data r1 then
        let dayTxt := r1.take alt.length
        let r2 := r1.drop alt.length
        if r2.takeWhile isPySpace = [] then none
        else
          let r3 := r2.dropWhile isPySpace
          if ciPre "al".data r3 then
            let r4 := r3.drop 2
            if r4.takeWhile isPySpace = [] then none
            else
              let r5 := r4.dropWhile isPySpace
              if ciPre "mes".data r5 then some (dayTxt, r5.drop 3) else none
          else none
      else none

/-- Scanner applying `alMesMatch` with replacement `\2 mensual`. -/
def subAlMesAux : ℕ → List Char → List Char
  | _, [] => []
  | 0, cs => cs
  | fuel + 1, c :: cs =>
    match alMesMatch (c :: cs) with
    | some (dayTxt, r) => dayTxt ++ " mensual".data ++ subAlMesAux fuel r
    | none => c :: subAlMesAux fuel cs

def subAlMes (cs : List Char) : List Char := subAlMesAux cs.length cs

/-- Scanner for the connective marking
`re.sub(r'\s+y\s+(?=[a-záéíóúñ])', ' Y ', _)` (line 244); the lookahead
character is not consumed. -/
def subMarcaYAux : ℕ → List Char → List Char
  | _, [] => []
  | 0, cs => cs
  | fuel + 1, c :: cs =>
    let m : Option (List Char) :=
      if isPySpace c then
        let r1 := (c :: cs).dropWhile isPySpace
        match r1 with
        | y :: r2 =>
          if pyLowerChar y = 'y' then
            if r2.takeWhile isPySpace = [] then none
            else
              let r3 := r2.dropWhile isPySpace
              match r3.head? with
              | some x => if isDayLetter x then some r3 else none
              | none => none
          else none
        | [] => none
      else none
    match m with
    | some r => ' ' :: 'Y' :: ' ' :: subMarcaYAux fuel r
    | none => c :: subMarcaYAux fuel cs

def subMarcaY (cs : List Char) : List Char := subMarcaYAux cs.length cs

/-- Scanner for one equivalence key:
`re.sub(r'\b' + re.escape(old) + r'\b', new, text, flags=re.IGNORECASE)`. -/
def subKeyAux (old new : List Char) : Option Char → ℕ → List Char → List Char
  | _, _, [] => []
  | _, 0, cs => cs
  | prev, fuel + 1, c :: cs =>
    let win := (c :: cs).take old.length
    let resto := (c :: cs).drop old.length
    if boundaryAt prev (some c) && ciPre old (c :: cs) &&
        boundaryAt win.getLast? resto.head? then
      new ++ subKeyAux old new win.getLast? fuel resto
    else
      c :: subKeyAux old new (some c) fuel cs

def subKey (old new : String) (cs : List Char) : List Char :=
  subKeyAux old.data new.data none cs.length cs

/-- The merged equivalence dictionary in insertion order:
`EQUIVALENCIAS` updated with `EQUIVALENCIAS_EXTRA` and
`EQUIVALENCIAS_MENSUALES` (lines 36-88); duplicate keys (`l a v`, `l-v`)
keep their first position with the (identical) updated value. -/
def equivalenciasInsercion : List (String × String) :=
  [("lunes a viernes", "lunes-viernes"), ("l a v", "lunes-viernes"),
   ("l-v", "lunes-viernes"),
   ("lunes a sabados", "lunes-sabado"), ("lunes a sabado", "lunes-sabado"),
   ("lunes a sábados", "lunes-sabado"), ("lunes a sab", "lunes-sabado"),
   ("lunes a domingos", "lunes-domingo"), ("lunes a domingo", "lunes-domingo"),
   ("lunes a jueves", "lunes-jueves"), ("lunes a miercoles", "lunes-miércoles"),
   ("lunes a martes", "lunes-martes"), ("martes a viernes", "martes-viernes"),
   ("lunes, martes y miercoles", "lunes y martes y miércoles"),
   ("lunes martes y miercoles", "lunes y martes y miércoles"),
   ("sábado domingo feriado", "sábado y domingo y feriado"),
   ("sábado feriado", "sábado y feriado"), ("domingo feriado", "domingo y feriado"),
   ("sxm", "sábado por medio"), ("dxm", "domingo por medio"),
   ("sadofe", "sábado y domingo y feriado"), ("safe", "sábado y feriado"),
   ("dofe", "domingo y feriado"), ("sado fe", "sábado y domingo y feriado"),
   ("sabados por medio", "sábado por medio"), ("sábado por medio", "sábado por medio"),
   ("domingo por medio", "domingo por medio"), ("feriados", "feriado"),
   ("lav", "lunes-viernes"), ("la v", "lunes-viernes"), ("l/v", "lunes-viernes"),
   ("l v", "lunes-viernes"), ("l a j", "lunes-jueves"), ("la j", "lunes-jueves"),
   ("3s", "y sábados 3"), ("2s", "y sábados 2"), ("1s", "y sábados 1"),
   ("3sab", "y sábados 3"), ("2sab", "y sábados 2"), ("1sab", "y sábados 1"),
   ("3sáb", "y sábados 3"), ("2sáb", "y sábados 2"), ("1sáb", "y sábados 1"),
   ("3 s", "y sábados 3"), ("2 s", "y sábados 2"), ("1 s", "y sábados 1"),
   (" s ", " y sábado "), (" d ", " y domingo "), (" l ", " y lunes "),
   (" m ", " y martes "), (" mi ", " y miércoles "), (" mie ", " y miércoles "),
   (" j ", " y jueves "), (" v ", " y viernes "),
   ("1 sábado al mes", "sábados 1"), ("2 sábados al mes", "sábados 2"),
   ("3 sábados al mes", "sábados 3"),
   ("1 sabado al mes", "sabados 1"), ("2 sabados al mes", "sabados 2"),
   ("3 sabados al mes", "sabados 3"),
   ("1 sab al mes", "sabados 1"), ("2 sab al mes", "sabados 2"),
   ("3 sab al mes", "sabados 3"),
   ("1 s al mes", "sabados 1"), ("2 s al mes", "sabados 2"),
   ("3 s al mes", "sabados 3")]

/-- Stable sort by descending key length (Python
`sorted(items, key=lambda x: len(x[0]), reverse=True)`; key lengths are
below 30). -/
def ordenaPorLongitud (l : List (String × String)) : List (String × String) :=
  ((List.range 30).reverse).flatMap (fun n => l.filter (fun p => p.1.length = n))

def EQUIVALENCIAS : List (String × String) := ordenaPorLongitud equivalenciasInsercion

/-- `apply_equivalences` (lines 209-257). -/
def apply_equivalences (text : String) (equivalences : List (String × String)) : String :=
  let cs := text.data
  let cs := subProtect "x" "___XMEDIO___" cs
  let cs := subProtect "por" "___PORMEDIO___" cs
  let cs := subLav cs
  let cs := subAlMes cs
  let cs := subMarcaY cs
  let cs := (ordenaPorLongitud equivalences).foldl
    (fun t kv => subKey kv.1 kv.2 t) cs
  let s := pyReplace (String.mk cs) "___XMEDIO___" " por medio"
  pyReplace s "___PORMEDIO___" " por medio"

/-- `normalizar_horario_input` (lines 259-263): the full normalization. -/
def normalizar_horario_input (s : String) : String :=
  apply_equivalences (limpiar_prefijos_horas (clean_and_standardize s)) EQUIVALENCIAS

/-! ### Schedule block parser (excel_a_json.py, lines 502-693) -/

/-- A value of `DAY_MAP`: a day index or a composite phrase. -/
inductive DiaVal where
  | idx (n : ℕ)
  | comp (s : String)
deriving DecidableEq

/-- `DAY_MAP` (lines 15-24) after duplicate-key collapsing (duplicates
carry equal values). -/
def DAY_MAP : List (String × DiaVal) :=
  [("lunes", .idx 0), ("martes", .idx 1), ("miercoles", .idx 2),
   ("miércoles", .idx 2), ("jueves", .idx 3), ("viernes", .idx 4),
   ("sábado", .idx 5), ("sabado", .idx 5), ("domingo", .idx 6),
   ("lun", .idx 0), ("mar", .idx 1), ("mie", .idx 2), ("jue", .idx 3),
   ("vie", .idx 4), ("sab", .idx 5), ("dom", .idx 6),
   ("l", .idx 0), ("m", .idx 1), ("x", .idx 2), ("j", .idx 3), ("v", .idx 4),
   ("s", .idx 5), ("d", .idx 6),
   ("sábados", .idx 5), ("sabados", .idx 5), ("domingos", .idx 6),
   ("feriado", .idx 7), ("feriados", .idx 7),
   ("safe", .comp "sábado y feriado"), ("dofe", .comp "domingo y feriado"),
   ("sadofe", .comp "sábado y domingo y feriado"),
   ("sado", .comp "sábado y domingo"), ("sado.", .comp "sábado y domingo"),
   ("sabdom", .comp "sábado y domingo"), ("sab y dom", .comp "sábado y domingo"),
   ("sab-dom", .comp "sábado y domingo"), ("sáb y dom", .comp "sábado y domingo"),
   ("sáb-dom", .comp "sábado y domingo"), ("sáb", .idx 5), ("sab.", .idx 5),
   ("sáb.", .idx 5)]

def dayMapGet (w : String) : Option DiaVal :=
  (DAY_MAP.find? (fun p => p.1 = w)).map Prod.snd

/-- `DAY_NAMES` (lines 26-29). -/
def DAY_NAMES : List (ℕ × String) :=
  [(0, "lunes"), (1, "martes"), (2, "miércoles"), (3, "jueves"),
   (4, "viernes"), (5, "sábado"), (6, "domingo"), (7, "feriado")]

/-- Python `str.isdigit()` (for the ASCII digits the tokenizer yields). -/
def pyIsDigit (s : String) : Bool := s.data ≠ [] && s.data.all isAsciiDigit

/-- Split a character list on a non-empty separator sublist
(Python `str.split(sep)`). -/
def splitOnSubAux (sep : List Char) : ℕ → List Char → List Char → List (List Char)
  | _, acc, [] => [acc.reverse]
  | 0, acc, cs => [acc.reverse ++ cs]
  | fuel + 1, acc, c :: cs =>
    if sep.isPrefixOf (c :: cs) then
      acc.reverse :: splitOnSubAux sep fuel [] ((c :: cs).drop sep.length)
    else splitOnSubAux sep fuel (c :: acc) cs

def splitOnSub (sep cs : List Char) : List (List Char) :=
  splitOnSubAux sep cs.length [] cs

/-- `[w.strip() for w in s.split(sep) if w.strip()]`. -/
def splitStripNonVacio (sep : String) (s : String) : List String :=
  ((splitOnSub sep.data s.data).map (fun w => String.mk (pyStrip w))).filter (· ≠ "")

/-- Range expansion helper for `get_day_indices`: `none` when one of the
two words is not in `DAY_MAP`; `some none` when a composite value makes
`range(min(...), max(...) + 1)` raise a `TypeError`; `some (some rng)`
otherwise. -/
def dayMapRango (a b : String) : Option (Option (List ℕ)) :=
  match dayMapGet a, dayMapGet b with
  | some (.idx x), some (.idx y) =>
    some (some ((List.range (max x y + 1)).filter (fun d => min x y ≤ d)))
  | some _, some _ => some none
  | _, _ => none

/-- One action of the `get_day_indices` while-loop. -/
inductive GdiPaso where
  | avanza (n : ℕ) (dias : List ℕ) (prop : Option ℕ)
  | sub (ws : List String) (n : ℕ)
  | falla

/-- One iteration of `get_day_indices` (lines 511-552) at index `i`: how
many words are consumed, which day indices are added, whether the
proportional entry is set, whether a sub-list is recursed into, or
whether an exception is raised. -/
def gdiPaso (words : List String) (i : ℕ) : GdiPaso :=
  match words.get? i with
  | none => .avanza 1 [] none
  | some w0 =>
    let word := pyLowerStr (String.mk (pyStrip w0.data))
    if strContains word " y " then
      .sub (splitStripNonVacio " y " word) 1
    else if (word = "sábado" || word = "sabado" || word = "sábados") &&
        (match words.get? (i + 1) with
         | some nxt => pyIsDigit nxt
         | none => false) then
      let num := ((words.get? (i + 1)).map
        (fun nxt => (pyIntOfDigits nxt.data).getD 0)).getD 0
      if 1 ≤ num ∧ num ≤ 4 then .avanza 2 [5] (some num)
      else .avanza 2 [] none
    else if word.data.contains '-' then
      match word.data.splitOn '-' with
      | [p0, p1] =>
        match dayMapRango (String.mk p0) (String.mk p1) with
        | none => .avanza 1 [] none
        | some none => .falla
        | some (some rng) => .avanza 1 rng none
      | _ => .avanza 1 [] none
    else if word = "a" ∧ 0 < i ∧ i + 1 < words.length then
      match words.get? (i - 1), words.get? (i + 1) with
      | some sw, some ew =>
        match dayMapRango sw ew with
        | none => .avanza 1 [] none
        | some none => .falla
        | some (some rng) => .avanza 1 rng none
      | _, _ => .avanza 1 [] none
    else
      match dayMapGet word with
      | some (.idx n) => .avanza 1 [n] none
      | some (.comp s) => .sub (splitStripNonVacio "y" s) 1
      | none => .avanza 1 [] none

/-- The while-loop of `get_day_indices`; `none` models an uncaught
exception, which the per-block `except` of `parse_schedule_string` turns
into a dropped block. -/
def gdiLoop : ℕ → List String → ℕ → List ℕ → Option ℕ → Option (List ℕ × Option ℕ)
  | 0, _, _, acc, prop => some (acc, prop)
  | fuel + 1, words, i, acc, prop =>
    if i < words.length then
      match gdiPaso words i with
      | .avanza n dias prop2 =>
        gdiLoop fuel words (i + n) (acc ++ dias)
          (match prop2 with
           | some p => some p
           | none => prop)
      | .sub ws n =>
        match gdiLoop fuel ws 0 [] none with
        | none => none
        | some r => gdiLoop fuel words (i + n) (acc ++ r.1) prop
      | .falla => none
    else some (acc, prop)

/-- `get_day_indices` (lines 503-554): sorted day-index set plus the
proportional-Saturdays entry (that dictionary only ever holds key 5,
modelled as `Option ℕ`). -/
def get_day_indices (day_words : List String) : Option (List ℕ × Option ℕ) :=
  match gdiLoop (100 + (day_words.map String.length).sum * 4) day_words 0 [] none with
  | none => none
  | some r => some (dedupSortNat r.1, r.2)

/-- `format_time_to_hhmm` (lines 265-274). -/
def zfill2 (cs : List Char) : List Char :=
  if cs.length ≥ 2 then cs else List.replicate (2 - cs.length) '0' ++ cs

def ljust2trunc (cs : List Char) : List Char := (cs ++ ['0', '0']).take 2

def format_time_to_hhmm (s : String) : String :=
  let cs := s.data.map (fun c => if c = '.' then ':' else c)
  if cs.contains ':' then
    match pySplitChar ':' cs with
    | p0 :: p1 :: _ => String.mk (zfill2 p0 ++ ':' :: ljust2trunc p1)
    | _ => String.mk (zfill2 cs ++ [':', '0', '0'])
  else String.mk (zfill2 cs ++ [':', '0', '0'])

/-- `generate_block_id` (lines 276-280). -/
def generate_block_id (days : List ℕ) (start_time end_time tipo : String)
    (counter : ℕ) : String :=
  let day_names := String.intercalate "_" (days.map (fun d =>
    match (DAY_NAMES.find? (fun p => p.1 = d)).map Prod.snd with
    | some n => n
    | none => toString d))
  let time_part := String.mk (start_time.data.filter (· ≠ ':')) ++ "_" ++
    String.mk (end_time.data.filter (· ≠ ':'))
  day_names ++ "_" ++ time_part ++ "_" ++ tipo ++ "_" ++ toString counter

/-! ### The main extraction pattern of `parse_schedule_string`

`((?:(?:[a-záéíóúñ]+|-)\s*|\d+\s*)+?)\s*(?:de\s*)?(\d{1,2}(?:[:\.]\d{2})?)\s*(?:a|-)\s*(\d{1,2}(?:[:\.]\d{2})?)`
with `re.IGNORECASE` (lines 584-591), implemented as a backtracking
matcher with the regex engine's exploration order: the day phrase is
lazy, every inner token greedy, candidates tried in alternation order. -/

/-- One match: `group(0)`, `group(1)` (day phrase), `group(2)`/`group(3)`
(start/end time tokens). -/
structure Seg where
  g0 : String
  g1 : String
  g2 : String
  g3 : String
deriving DecidableEq

/-- Candidates for `\d{1,2}(?:[:\.]\d{2})?` in backtracking order
(2 digits + suffix, 2 digits, 1 digit + suffix, 1 digit). -/
def timeCandidates (cs : List Char) : List (List Char × List Char) :=
  match cs with
  | c1 :: rest1 =>
    if !isAsciiDigit c1 then []
    else
      let dos :=
        match rest1 with
        | c2 :: rest2 =>
          if isAsciiDigit c2 then
            let sufs :=
              match rest2 with
              | p :: d1 :: d2 :: rest3 =>
                if (p = ':' ∨ p = '.') ∧ isAsciiDigit d1 ∧ isAsciiDigit d2 then
                  [([c1, c2, p, d1, d2], rest3)]
                else []
              | _ => []
            sufs ++ [([c1, c2], rest2)]
          else []
        | [] => []
      let uno :=
        let sufs :=
          match rest1 with
          | p :: d1 :: d2 :: rest3 =>
            if (p = ':' ∨ p = '.') ∧ isAsciiDigit d1 ∧ isAsciiDigit d2 then
              [([c1, p, d1, d2], rest3)]
            else []
          | _ => []
        sufs ++ [([c1], rest1)]
      dos ++ uno
  | [] => []

/-- `\s*(?:a|-)\s*` separator; returns (consumed, rest). -/
def sepMatch (cs : List Char) : Option (List Char × List Char) :=
  let sp1 := cs.takeWhile isPySpace
  let r1 := cs.dropWhile isPySpace
  match r1 with
  | c :: r2 =>
    if pyLowerChar c = 'a' ∨ c = '-' then
      let sp2 := r2.takeWhile isPySpace
      some (sp1 ++ c :: sp2, r2.dropWhile isPySpace)
    else none
  | [] => none

/-- Continuation after the day phrase:
`\s*(?:de\s*)?(\d{1,2}...)\s*(?:a|-)\s*(\d{1,2}...)`; returns
(consumed, group 2, group 3, rest). -/
def tryCont (cs : List Char) : Option (List Char × List Char × List Char × List Char) :=
  let sp0 := cs.takeWhile isPySpace
  let r0 := cs.dropWhile isPySpace
  let deOpciones : List (List Char × List Char) :=
    (if ciPre "de".data r0 then
      let r1 := r0.drop 2
      let sp1 := r1.takeWhile isPySpace
      [(r0.take 2 ++ sp1, r1.dropWhile isPySpace)]
    else []) ++ [([], r0)]
  deOpciones.findSome? fun dc =>
    (timeCandidates dc.2).findSome? fun g2c =>
      match sepMatch g2c.2 with
      | none => none
      | some (scons, r3) =>
        (timeCandidates r3).findSome? fun g3c =>
          some (sp0 ++ dc.1 ++ g2c.1 ++ scons ++ g3c.1, g2c.1, g3c.1, g3c.2)

/-- Candidates for one unit of the lazy day phrase
`(?:[a-záéíóúñ]+|-)\s*|\d+\s*`: letters and `-` are deterministic, a
digit run is offered greedily (full run, then shorter prefixes, the
regex's backtracking into `\d+`). -/
def unitCandidates (cs : List Char) : List (List Char × List Char) :=
  match cs with
  | c :: _ =>
    if isDayLetter c then
      let w := cs.takeWhile isDayLetter
      let r := cs.dropWhile isDayLetter
      let sp := r.takeWhile isPySpace
      [(w ++ sp, r.dropWhile isPySpace)]
    else if c = '-' then
      let r := cs.drop 1
      let sp := r.takeWhile isPySpace
      [('-' :: sp, r.dropWhile isPySpace)]
    else if isAsciiDigit c then
      let run := cs.takeWhile isAsciiDigit
      let r := cs.dropWhile isAsciiDigit
      let sp := r.takeWhile isPySpace
      (run ++ sp, r.dropWhile isPySpace) ::
        ((List.range (run.length - 1)).reverse.map (fun k =>
          (run.take (k + 1), cs.drop (k + 1))))
    else []
  | [] => []

/-- Lazy-quantifier search: with at least one unit consumed, try the
continuation first, then extend the day phrase by one more unit. -/
def g1Search : ℕ → List Char → List Char → Option (Seg × List Char)
  | fuel, g1, cs =>
    match tryCont cs with
    | some (ccons, g2, g3, rest) =>
      some (⟨String.mk (g1 ++ ccons), String.mk g1, String.mk g2, String.mk g3⟩, rest)
    | none =>
      match fuel with
      | 0 => none
      | fuel + 1 =>
        (unitCandidates cs).findSome? fun ur => g1Search fuel (g1 ++ ur.1) ur.2

/-- Attempt a match anchored at the current position. -/
def matchAt (cs : List Char) : Option (Seg × List Char) :=
  (unitCandidates cs).findSome? fun ur => g1Search cs.length ur.1 ur.2

/-- `pattern.finditer`: leftmost matches, scanning resumes after each. -/
def finditerAux : ℕ → List Char → List Seg
  | 0, _ => []
  | _, [] => []
  | fuel + 1, c :: cs =>
    match matchAt (c :: cs) with
    | some (seg, rest) => seg :: finditerAux fuel rest
    | none => finditerAux fuel cs

def finditerPattern (s : String) : List Seg := finditerAux s.data.length s.data

/-- `pattern.search`: the leftmost match, if any. -/
def searchPattern (s : String) : Option Seg := (finditerPattern s).head?

/-- `re.split(r'\s+y\s+', texto, flags=re.IGNORECASE)`. -/
def splitYAux : ℕ → List Char → List Char → List (List Char)
  | _, acc, [] => [acc.reverse]
  | 0, acc, cs => [acc.reverse ++ cs]
  | fuel + 1, acc, c :: cs =>
    if isPySpace c then
      let r1 := (c :: cs).dropWhile isPySpace
      match r1 with
      | y :: r2 =>
        if pyLowerChar y = 'y' ∧ r2.takeWhile isPySpace ≠ [] then
          acc.reverse :: splitYAux fuel [] (r2.dropWhile isPySpace)
        else splitYAux fuel (c :: acc) cs
      | [] => splitYAux fuel (c :: acc) cs
    else splitYAux fuel (c :: acc) cs

/-- `division_inteligente_bloques` (lines 557-566). -/
def division_inteligente_bloques (texto : String) : List Seg :=
  let partes := (splitYAux texto.data.length [] texto.data).map String.mk
  partes.filterMap (fun parte =>
    if parte = "" then none
    else searchPattern (String.mk (pyStrip parte.data)))

/-- Letter class `[a-záéíóúñ]` of the token `findall` (no IGNORECASE). -/
def isLetraDia (c : Char) : Bool :=
  isLowerAlpha c || c = 'á' || c = 'é' || c = 'í' || c = 'ó' || c = 'ú' || c = 'ñ'

/-- `re.findall(r'[a-záéíóúñ]+-[a-záéíóúñ]+|[a-záéíóúñ]+|\d+', day_phrase)`
(line 612). -/
def tokensFindallAux : ℕ → List Char → List String
  | 0, _ => []
  | _, [] => []
  | fuel + 1, c :: cs =>
    if isLetraDia c then
      let w1 := (c :: cs).takeWhile isLetraDia
      let r1 := (c :: cs).dropWhile isLetraDia
      match r1 with
      | '-' :: d :: r2 =>
        if isLetraDia d then
          String.mk (w1 ++ '-' :: (d :: r2).takeWhile isLetraDia) ::
            tokensFindallAux fuel ((d :: r2).dropWhile isLetraDia)
        else String.mk w1 :: tokensFindallAux fuel r1
      | _ => String.mk w1 :: tokensFindallAux fuel r1
    else if isAsciiDigit c then
      String.mk ((c :: cs).takeWhile isAsciiDigit) ::
        tokensFindallAux fuel ((c :: cs).dropWhile isAsciiDigit)
    else tokensFindallAux fuel cs

def tokensFindall (cs : List Char) : List String := tokensFindallAux cs.length cs

/-- `re.match(r'(\d+)[\s]*s', w, re.IGNORECASE)` of the `1S/2S/3S`
periodicity detection (line 636-638). -/
def numSabadosMatch (w : String) : Option ℕ :=
  let ds := w.data.takeWhile isAsciiDigit
  if ds = [] then none
  else
    match (w.data.dropWhile isAsciiDigit).dropWhile isPySpace with
    | c :: _ => if pyLowerChar c = 's' then pyIntOfDigits ds else none
    | [] => none

/-- Lexicographic (code-point) comparison of character lists, the order
Python uses for `str < str`. -/
def listLtChars : List Char → List Char → Bool
  | [], [] => false
  | [], _ :: _ => true
  | _ :: _, [] => false
  | a :: as, b :: bs =>
    if a < b then true
    else if b < a then false
    else listLtChars as bs

/-- Python string comparison `a < b`. -/
def pyStrLt (a b : String) : Bool := listLtChars a.data b.data

/-- The per-match block construction of `parse_schedule_string`
(lines 608-687); `none` when the block is dropped (no valid days, or the
caught per-block exception). -/
def mkBloque (seg : Seg) (counter : ℕ) : Option ScheduleBlock :=
  let day_phrase := String.mk (pyStrip seg.g1.data)
  let tokens := tokensFindall day_phrase.data
  let day_words := tokens.filter (fun w => w ≠ "y" ∧ w ≠ "de")
  let flat_day_words := day_words.flatMap (fun w =>
    if strContains w " y " then splitStripNonVacio " y " w else [w])
  match get_day_indices flat_day_words with
  | none => none
  | some (current_dias, proportional_data) =>
    if current_dias = [] then none
    else
      let periodicity : Periodicidad :=
        match proportional_data with
        | some num => ⟨"proporcional", (num : ℚ) / 4⟩
        | none =>
          match day_words.findSome? numSabadosMatch with
          | some num => ⟨"mensual", (num : ℚ) / 4⟩
          | none =>
            if day_words.contains "mensual" ∨ day_words.contains "mes" then
              ⟨"mensual", 1/4⟩
            else if day_words.contains "por" ∨ day_words.contains "medio" then
              ⟨"quincenal", 1/2⟩
            else ⟨"semanal", 1⟩
      let start_time := format_time_to_hhmm seg.g2
      let end_time := format_time_to_hhmm seg.g3
      if start_time = "" ∨ end_time = "" then none
      else
        some ⟨generate_block_id current_dias start_time end_time periodicity.tipo counter,
          current_dias, start_time, end_time, periodicity,
          String.mk (pyStrip seg.g0.data),
          pyStrLt end_time start_time⟩

/-- The block-accumulation loop (`normalized_blocks`). -/
def mkBlocks : List Seg → List ScheduleBlock → List ScheduleBlock
  | [], acc => acc
  | seg :: rest, acc =>
    match mkBloque seg acc.length with
    | some b => mkBlocks rest (acc ++ [b])
    | none => mkBlocks rest acc

/-- `parse_schedule_string` (lines 569-693). -/
def parse_schedule_string (schedule_str : String) : List ScheduleBlock :=
  if schedule_str = "" then []
  else
    let s_std := apply_equivalences (clean_and_standardize schedule_str) EQUIVALENCIAS
    let coincidencias := finditerPattern s_std
    let coincidencias :=
      if coincidencias.isEmpty ∧ (s_std.data.contains 'Y' ∨ s_std.data.contains 'y') then
        division_inteligente_bloques s_std
      else coincidencias
    if coincidencias.isEmpty then []
    else mkBlocks coincidencias []

/-! ### Audit layer: specification-side definitions and concrete inputs

The definitions below are NOT translations of the source: each follows
the words of the specification (or builds a concrete input record) and
is compared against the source-derived definitions above by the
theorems at the end of the file. -/

/-- The v239 value as the specification words it: the summary's total
weekly hours, where a missing or non-numeric value and a value outside
`[0,168]` all yield 0. -/
def v239_claim (l : Legajo) : ℚ :=
  match ths_of l with
  | some (PyVal.num q) => if q < 0 ∨ q > 168 then 0 else q
  | some (PyVal.other _) => 0
  | none => 0

/-- The guard flag as the specification words it: site in the allow-list,
extras text contains "full guardia" after normalization, and the
periodicity-weighted worked-day count is at most 3. -/
def es_guardia_claim (l : Legajo) : Prop :=
  normalizar_texto ((dp_sede l).getD "") ∈ sedes_permitidas ∧
  strContains (normalizar_texto ((rem_adicionables l).getD "")) "full guardia" = true ∧
  dias_trabajados_ponderados (bpd_of l) ≤ 3

/-- Exact (unrounded) weekly-hour contribution of one block, as the
summarizer's accumulator adds it: duration times distinct-day count times
periodicity factor, 0 when a time does not parse. -/
def contribBloque (b : ScheduleBlock) : ℚ :=
  match parseHHMM b.hora_inicio, parseHHMM b.hora_fin with
  | some hi, some hf =>
    duracionBloque hi hf b.cruza_dia * ((dedupSortNat b.dias_semana).length : ℚ) *
      b.periodicidad.factor
  | _, _ => 0

/-- Exact total weekly hours of a block list. -/
def horasSemanalesExactas (bloques : List ScheduleBlock) : ℚ :=
  (bloques.map contribBloque).sum

/-- Sum over all per-day entries of their stored (2-decimal rounded)
weekly hours, the quantity the invariant of the specification compares
with `total_horas_semanales`. -/
def sumaPorDia (r : ResumenHorario) : ℚ :=
  (r.bloques_por_dia.map (fun p => (p.2.map (fun e => e.horas_semanales)).sum)).sum

/-- Length of the intersection of the block's interval (end shifted by
24h when overnight) with the nocturnal window `[22, 30]` on the same-day
axis, as the specification words it: 0 when the intervals are disjoint. -/
def interseccionNocturna (hi hf : ℕ × ℕ) (cruza : Bool) : ℚ :=
  max 0 (min ((hf.1 : ℚ) + (hf.2 : ℚ) / 60 + (if cruza then 24 else 0)) 30 -
    max ((hi.1 : ℚ) + (hi.2 : ℚ) / 60) 22)

/-- A block whose (parsed) interval does not intersect the nocturnal
window; a block whose times do not parse contributes nothing either. -/
def bloqueSinNocturnidad (b : ScheduleBlock) : Bool :=
  match parseHHMM b.hora_inicio, parseHHMM b.hora_fin with
  | some hi, some hf => decide (interseccionNocturna hi hf b.cruza_dia = 0)
  | _, _ => true

/-- Shape of a time token captured by `\d{1,2}(?:[:\.]\d{2})?`. -/
def timeShape (cs : List Char) : Bool :=
  match cs with
  | [d] => isAsciiDigit d
  | [d1, d2] => isAsciiDigit d1 && isAsciiDigit d2
  | [d, p, m1, m2] =>
    isAsciiDigit d && (p = ':' || p = '.') && isAsciiDigit m1 && isAsciiDigit m2
  | [d1, d2, p, m1, m2] =>
    isAsciiDigit d1 && isAsciiDigit d2 && (p = ':' || p = '.') &&
      isAsciiDigit m1 && isAsciiDigit m2
  | _ => false

/-- Five-character `HH:MM` shape with arbitrary digits (`00 ≤ HH ≤ 99`,
`00 ≤ MM ≤ 99`). -/
def hhmm99 (s : String) : Bool :=
  match s.data with
  | [h1, h2, c, m1, m2] =>
    isAsciiDigit h1 && isAsciiDigit h2 && c = ':' && isAsciiDigit m1 && isAsciiDigit m2
  | _ => false

/-- The clock format the specification claims: `HH:MM` with
`00 ≤ HH ≤ 23` and `00 ≤ MM ≤ 59`. -/
def hhmm23 (s : String) : Bool :=
  match s.data with
  | [h1, h2, c, m1, m2] =>
    isAsciiDigit h1 && isAsciiDigit h2 && c = ':' && isAsciiDigit m1 && isAsciiDigit m2 &&
      decide ((h1.toNat - 48) * 10 + (h2.toNat - 48) ≤ 23) &&
      decide ((m1.toNat - 48) * 10 + (m2.toNat - 48) ≤ 59)
  | _ => false

/-- A record with a non-empty block list whose single block lacks
`dias_semana`: `validar_horario` then reports the schedule as not
interpretable. -/
def legajoBloqueIncompleto : Legajo :=
  ⟨1, none, none, some ⟨[⟨none, some "09:00", some "17:00"⟩], none⟩, none⟩

/-- A complete, valid schedule: one block with all three keys and a
summary totalling 40 weekly hours. -/
def horarioValido : HorarioJson :=
  ⟨[⟨some [0, 1, 2, 3, 4], some "09:00", some "17:00"⟩],
   some ⟨some (PyVal.num 40), some (PyVal.num 0), [0, 1, 2, 3, 4],
     [("0", [⟨some "09:00", some 8, some 0, some "semanal", some 8⟩]),
      ("1", [⟨some "09:00", some 8, some 0, some "semanal", some 8⟩]),
      ("2", [⟨some "09:00", some 8, some 0, some "semanal", some 8⟩]),
      ("3", [⟨some "09:00", some 8, some 0, some "semanal", some 8⟩]),
      ("4", [⟨some "09:00", some 8, some 0, some "semanal", some 8⟩])]⟩⟩

/-- A record carrying `horarioValido`. -/
def legajoValido : Legajo := ⟨2, none, none, some horarioValido, none⟩

/-- A record whose `horario.bloques` list is empty. -/
def legajoBloquesVacios : Legajo := ⟨3, none, none, some ⟨[], none⟩, none⟩

/-- A record with no `horario` key at all: reading `legajo['horario']`
raises `KeyError`. -/
def legajoSinHorario : Legajo := ⟨4, none, none, none, none⟩

/-- Seven days of 09:00-17:20: each day stores `round2 (25/3) = 8.33`
weekly hours while the total accumulates the exact `25/3` per day. -/
def bloqueSieteDias : ScheduleBlock :=
  ⟨"b7", [0, 1, 2, 3, 4, 5, 6], "09:00", "17:20", ⟨"semanal", 1⟩, "", false⟩

/-- A purely diurnal block, 09:00-17:00 on Monday. -/
def bloqueDiurno : ScheduleBlock :=
  ⟨"d0", [0], "09:00", "17:00", ⟨"semanal", 1⟩, "", false⟩

/-- The parser's output block for the input "lunes 9 a 17". -/
def bloqueLunes917 : ScheduleBlock :=
  ⟨"lunes_0900_1700_semanal_0", [0], "09:00", "17:00", ⟨"semanal", 1⟩,
   "lunes 9 a 17", false⟩

/-- The parser's output block for the input "martes 10 a 18". -/
def bloqueMartes1018 : ScheduleBlock :=
  ⟨"martes_1000_1800_semanal_0", [1], "10:00", "18:00", ⟨"semanal", 1⟩,
   "martes 10 a 18", false⟩

/-! ## Theorems

Shared helper lemmas first, then the audited claims C1-C10: one theorem
per claim, with its witness or counterexample where applicable. -/

theorem validar_ok_true (l : Legajo) (h : HorarioJson) (hh : l.horario = some h)
    (hne : h.bloques ≠ []) (hc : ∀ b ∈ h.bloques, bloqueCompleto b = true) :
    validar_horario l = .ok true := by
  unfold validar_horario
  rw [hh]
  have h1 : h.bloques.isEmpty = false := by
    cases hb : h.bloques with
    | nil => exact absurd hb hne
    | cons a as => rfl
  have h2 : h.bloques.all bloqueCompleto = true := List.all_eq_true.mpr hc
  simp [h1, h2]

theorem validar_ok_false (l : Legajo) (h : HorarioJson) (hh : l.horario = some h)
    (hv : h.bloques = [] ∨ ∃ b ∈ h.bloques, bloqueCompleto b = false) :
    validar_horario l = .ok false := by
  unfold validar_horario
  rw [hh]
  rcases hv with hv | ⟨b, hb, hbad⟩
  · simp [hv]
  · have hne : h.bloques.isEmpty = false := by
      cases hbl : h.bloques with
      | nil => rw [hbl] at hb; cases hb
      | cons a as => rfl
    have hall : h.bloques.all bloqueCompleto = false := by
      cases hball : h.bloques.all bloqueCompleto with
      | false => rfl
      | true =>
        have := List.all_eq_true.mp hball b hb
        rw [hbad] at this
        cases this
    simp [hne, hall]

theorem calcular_variables_ok_true (l : Legajo)
    (hval : validar_horario l = .ok true) :
    ∃ rest, calcular_variables l =
      ((239 : ℤ), VarVal.num (round2 (obtener_horas_semanales l))) :: rest := by
  unfold calcular_variables calcVarsBody
  rw [hval]
  exact ⟨_, rfl⟩

theorem obtener_eq_claim (l : Legajo) :
    obtener_horas_semanales l = v239_claim l := by
  unfold obtener_horas_semanales v239_claim
  cases ths_of l with
  | none => rfl
  | some v =>
    cases v with
    | num q => rfl
    | other s => rfl

/-- **C1** (counterexample to the frozen wording).  A record whose block
list is non-empty but whose single block lacks `dias_semana` makes
`validar_horario` report the schedule as not interpretable, so the result
list is the lone 9000 entry and variable 239 is absent. -/
theorem c1_counterexample :
    (legajoBloqueIncompleto.horario.map (fun h => !h.bloques.isEmpty)).getD false = true ∧
    calcular_variables legajoBloqueIncompleto =
      [(9000, VarVal.str "No se pudo interpretar correctamente el horario")] :=
  ⟨rfl, rfl⟩

/-- **C1** (amended).  For a record whose block list is non-empty and all
of whose blocks carry the three required keys, the engine emits variable
239 with the 2-decimal rounding of the clamped total weekly hours: a
missing or non-numeric summary total and a total outside `[0,168]` all
yield 0, any other total is passed through. -/
theorem c1_amended (l : Legajo) (h : HorarioJson) (hh : l.horario = some h)
    (hne : h.bloques ≠ []) (hc : ∀ b ∈ h.bloques, bloqueCompleto b = true) :
    obtener_horas_semanales l = v239_claim l ∧
    ((239 : ℤ), VarVal.num (round2 (v239_claim l))) ∈ calcular_variables l := by
  refine ⟨obtener_eq_claim l, ?_⟩
  obtain ⟨rest, hr⟩ := calcular_variables_ok_true l (validar_ok_true l h hh hne hc)
  rw [hr, obtener_eq_claim l]
  exact List.mem_cons_self _ _

theorem c1_witness :
    obtener_horas_semanales legajoValido = v239_claim legajoValido ∧
    ((239 : ℤ), VarVal.num (round2 (v239_claim legajoValido))) ∈
      calcular_variables legajoValido :=
  c1_amended legajoValido horarioValido rfl (by decide) (by decide)

/-- **C2** (confirmed).  An empty block list, or any block missing one of
the required day/start/end keys, short-circuits the engine to exactly the
single informational "schedule not interpretable" entry. -/
theorem c2_theorem (l : Legajo) (h : HorarioJson) (hh : l.horario = some h)
    (hv : h.bloques = [] ∨ ∃ b ∈ h.bloques, bloqueCompleto b = false) :
    calcular_variables l =
      [(9000, VarVal.str "No se pudo interpretar correctamente el horario")] := by
  have hval := validar_ok_false l h hh hv
  unfold calcular_variables calcVarsBody
  rw [hval]
  rfl

theorem c2_witness :
    calcular_variables legajoBloquesVacios =
      [(9000, VarVal.str "No se pudo interpretar correctamente el horario")] :=
  c2_theorem legajoBloquesVacios ⟨[], none⟩ rfl (Or.inl rfl)

theorem es_guardia_eq (l : Legajo) :
    es_guardia l =
      (sedes_permitidas.contains (normalizar_texto ((dp_sede l).getD "")) &&
       strContains (normalizar_texto ((rem_adicionables l).getD "")) "full guardia" &&
       !(decide (dias_trabajados_ponderados (bpd_of l) > 3))) := by
  unfold es_guardia
  by_cases h1 : sedes_permitidas.contains (normalizar_texto ((dp_sede l).getD "")) = true <;>
    by_cases h2 : strContains (normalizar_texto ((rem_adicionables l).getD ""))
      "full guardia" = true <;>
    by_cases h3 : dias_trabajados_ponderados (bpd_of l) > 3 <;>
    simp [h1, h2, h3]

/-- **C3** (confirmed).  The guard flag holds exactly when the normalized
site is in the allow-list, the normalized extras contain "full guardia",
and the periodicity-weighted worked-day count (0.5 for a day with a
biweekly block, 1.0 otherwise) is at most 3. -/
theorem c3_theorem (l : Legajo) : es_guardia l = true ↔ es_guardia_claim l := by
  rw [es_guardia_eq]
  unfold es_guardia_claim
  simp [List.elem_iff, not_lt, and_assoc]

set_option maxRecDepth 100000 in
/-- **C8** (counterexample to the frozen wording).  Normalizing the
already-normalized form of "sxm" does not return it unchanged. -/
theorem c8_counterexample :
    normalizar_horario_input (normalizar_horario_input "sxm") ≠
      normalizar_horario_input "sxm" := by
  decide

set_option maxRecDepth 100000 in
/-- **C8** (amended).  The normalizer is not idempotent: restoring the
protected "por medio" placeholder prepends a space, so re-normalizing
"sábado por medio" yields "sábado  por medio" (double space);
normalization stabilizes from the second application on this input. -/
theorem c8_amended :
    normalizar_horario_input "sxm" = "sábado por medio" ∧
    normalizar_horario_input "sábado por medio" = "sábado  por medio" ∧
    normalizar_horario_input "sábado  por medio" = "sábado  por medio" :=
  ⟨rfl, rfl, rfl⟩

/-- **C9** (confirmed).  In this embedding the rule engine is a pure
total function of the record: it mutates nothing, so mapping it over a
batch decomposes pointwise and each record's result is independent of
its position and of the surrounding records. -/
theorem c9_theorem (pre post : List Legajo) (l : Legajo) :
    (pre ++ l :: post).map calcular_variables =
      pre.map calcular_variables ++
        calcular_variables l :: post.map calcular_variables := by
  simp

/-- **C10** (confirmed).  When the body of `calcular_variables` escapes
with an exception, the catch-all handler returns the empty list: no
partial result and no exception reaches the caller. -/
theorem c10_theorem (l : Legajo) (e : PyErr) (he : calcVarsBody l = .error e) :
    calcular_variables l = [] := by
  unfold calcular_variables
  rw [he]

theorem c10_witness : calcular_variables legajoSinHorario = [] :=
  c10_theorem legajoSinHorario (PyErr.keyError "horario") rfl

theorem getD_set_self {α : Type} (l : List α) (i : ℕ) (a d : α) (h : i < l.length) :
    (l.set i a).getD i d = a := by
  induction l generalizing i with
  | nil => exact absurd h (Nat.not_lt_zero i)
  | cons x xs ih =>
    cases i with
    | zero => rfl
    | succ n => exact ih n (Nat.lt_of_succ_lt_succ h)

theorem getD_set_ne {α : Type} (l : List α) (i j : ℕ) (a d : α) (h : i ≠ j) :
    (l.set i a).getD j d = l.getD j d := by
  induction l generalizing i j with
  | nil => rfl
  | cons x xs ih =>
    cases i with
    | zero =>
      cases j with
      | zero => exact absurd rfl h
      | succ m => rfl
    | succ n =>
      cases j with
      | zero => rfl
      | succ m => exact ih n m (fun he => h (by rw [he]))

theorem mem_insSorted (a d : ℕ) (l : List ℕ) : a ∈ insSorted d l ↔ a = d ∨ a ∈ l := by
  induction l with
  | nil => simp [insSorted]
  | cons x xs ih =>
    by_cases h1 : d < x <;> by_cases h2 : d = x <;>
      simp [insSorted, h1, h2, ih, List.mem_cons] <;> tauto

theorem mem_foldl_insSorted (l : List ℕ) : ∀ (acc : List ℕ) (a : ℕ),
    a ∈ l.foldl (fun acc d => insSorted d acc) acc ↔ a ∈ acc ∨ a ∈ l := by
  induction l with
  | nil => intro acc a; simp
  | cons x xs ih =>
    intro acc a
    rw [List.foldl_cons, ih, mem_insSorted]
    simp [List.mem_cons]
    tauto

theorem mem_dedupSortNat (a : ℕ) (l : List ℕ) : a ∈ dedupSortNat l ↔ a ∈ l := by
  unfold dedupSortNat
  rw [mem_foldl_insSorted]
  simp

theorem mem_insDia (a : ℕ) (ds : List ℕ) (d : ℕ) :
    a ∈ insDia ds d ↔ a ∈ ds ∨ a = d := by
  unfold insDia
  by_cases h : ds.contains d
  · have hd : d ∈ ds := List.elem_iff.mp h
    simp only [h, if_pos]
    constructor
    · exact Or.inl
    · rintro (ha | rfl)
      · exact ha
      · exact hd
  · have hd : d ∉ ds := fun hmem => h (List.elem_iff.mpr hmem)
    simp [hd, List.mem_append]

theorem filterMap_keys {β : Type} (l : List ℕ) (F : ℕ → Option (ℕ × β))
    (h : ∀ d ∈ l, ∃ v, F d = some (d, v)) :
    (l.filterMap F).map Prod.fst = l := by
  induction l with
  | nil => rfl
  | cons x xs ih =>
    obtain ⟨v, hv⟩ := h x (List.mem_cons_self x xs)
    simp only [List.filterMap_cons, hv, List.map_cons]
    rw [ih (fun d hd => h d (List.mem_cons_of_mem x hd))]

theorem diasLoop_lt8 (e : EntradaResumen) :
    ∀ (dias dt : List ℕ) (bpd : List (List EntradaResumen)),
      (∀ d ∈ dias, d < 8) → bpd.length = 8 →
      ∃ dt2 bpd2, diasLoop e dias dt bpd = (dt2, bpd2, true) ∧
        bpd2.length = 8 ∧
        (∀ d, d ∈ dt2 ↔ (d ∈ dt ∨ d ∈ dias)) ∧
        (∀ d, (bpd2.getD d []).isEmpty = false ↔
          ((bpd.getD d []).isEmpty = false ∨ d ∈ dias)) := by
  intro dias
  induction dias with
  | nil =>
    intro dt bpd _ hlen
    exact ⟨dt, bpd, rfl, hlen, by simp, by simp⟩
  | cons d rest ih =>
    intro dt bpd hd8 hlen
    have hd : d < 8 := hd8 d (List.mem_cons_self d rest)
    have hrest : ∀ x ∈ rest, x < 8 := fun x hx => hd8 x (List.mem_cons_of_mem d hx)
    have hlen2 : (bpd.set d (bpd.getD d [] ++ [e])).length = 8 := by
      rw [List.length_set]; exact hlen
    obtain ⟨dt2, bpd2, heq, hl2, hmem, hne⟩ :=
      ih (insDia dt d) (bpd.set d (bpd.getD d [] ++ [e])) hrest hlen2
    refine ⟨dt2, bpd2, ?_, hl2, ?_, ?_⟩
    · unfold diasLoop
      simp only [hd, if_pos]
      exact heq
    · intro x
      rw [hmem x, mem_insDia]
      simp only [List.mem_cons]
      tauto
    · intro x
      rw [hne x]
      by_cases hx : x = d
      · subst hx
        rw [getD_set_self bpd x (bpd.getD x [] ++ [e]) [] (by rw [hlen]; exact hd)]
        have happ : (bpd.getD x [] ++ [e]).isEmpty = false := by
          cases bpd.getD x [] <;> rfl
        simp [happ, List.mem_cons]
      · rw [getD_set_ne bpd d x _ [] (fun he => hx he.symm)]
        simp only [List.mem_cons]
        tauto

theorem procesaBloque_inv (st : EstadoResumen) (b : ScheduleBlock)
    (hlen : st.bloques_por_dia.length = 8)
    (hdt : ∀ d ∈ st.dias_trabajo, (st.bloques_por_dia.getD d []).isEmpty = false)
    (hd8 : ∀ d ∈ b.dias_semana, d < 8) :
    (procesaBloque st b).bloques_por_dia.length = 8 ∧
    (∀ d ∈ (procesaBloque st b).dias_trabajo,
      ((procesaBloque st b).bloques_por_dia.getD d []).isEmpty = false) ∧
    (procesaBloque st b).total_horas = st.total_horas + contribBloque b := by
  unfold procesaBloque contribBloque
  cases hpi : parseHHMM b.hora_inicio with
  | none =>
    simp only [hpi]
    exact ⟨hlen, hdt, (add_zero _).symm⟩
  | some hi =>
    cases hpf : parseHHMM b.hora_fin with
    | none =>
      simp only [hpi, hpf]
      exact ⟨hlen, hdt, (add_zero _).symm⟩
    | some hf =>
      simp only [hpi, hpf]
      have hd8' : ∀ d ∈ dedupSortNat b.dias_semana, d < 8 := fun d hd =>
        hd8 d ((mem_dedupSortNat d _).mp hd)
      obtain ⟨dt2, bpd2, heq, hl2, hmem, hne⟩ :=
        diasLoop_lt8
          ⟨b.hora_inicio, b.hora_fin, round2 (duracionBloque hi hf b.cruza_dia),
           round2 (horasNoctBloque hi hf b.cruza_dia), b.periodicidad.tipo,
           round2 (duracionBloque hi hf b.cruza_dia * b.periodicidad.factor)⟩
          (dedupSortNat b.dias_semana) st.dias_trabajo st.bloques_por_dia hd8' hlen
      rw [heq]
      refine ⟨hl2, ?_, rfl⟩
      intro d hd
      rcases (hmem d).mp hd with hold | hnew
      · exact (hne d).mpr (Or.inl (hdt d hold))
      · exact (hne d).mpr (Or.inr hnew)

theorem foldl_procesa_inv (bs : List ScheduleBlock) :
    ∀ st : EstadoResumen,
      st.bloques_por_dia.length = 8 →
      (∀ d ∈ st.dias_trabajo, (st.bloques_por_dia.getD d []).isEmpty = false) →
      (∀ b ∈ bs, ∀ d ∈ b.dias_semana, d < 8) →
      (bs.foldl procesaBloque st).bloques_por_dia.length = 8 ∧
      (∀ d ∈ (bs.foldl procesaBloque st).dias_trabajo,
        ((bs.foldl procesaBloque st).bloques_por_dia.getD d []).isEmpty = false) ∧
      (bs.foldl procesaBloque st).total_horas =
        st.total_horas + horasSemanalesExactas bs := by
  induction bs with
  | nil =>
    intro st h1 h2 _
    exact ⟨h1, h2, by simp [horasSemanalesExactas]⟩
  | cons b rest ih =>
    intro st h1 h2 hb
    obtain ⟨g1, g2, g3⟩ := procesaBloque_inv st b h1 h2 (hb b (List.mem_cons_self b rest))
    obtain ⟨f1, f2, f3⟩ := ih (procesaBloque st b) g1 g2
      (fun x hx => hb x (List.mem_cons_of_mem b hx))
    rw [List.foldl_cons]
    refine ⟨f1, f2, ?_⟩
    rw [f3, g3]
    unfold horasSemanalesExactas
    simp [add_assoc]

theorem rhe_eval_lt (q : ℚ) (n : ℤ) (h1 : (n : ℚ) ≤ q) (h2 : q < (n : ℚ) + 1/2) :
    rhe q = n := by
  have hf : ⌊q⌋ = n := by
    rw [Int.floor_eq_iff]
    exact ⟨h1, by linarith⟩
  unfold rhe
  simp only [hf]
  rw [if_pos (by linarith : q - (n : ℚ) < 1/2)]

theorem round2_eval (q : ℚ) (n : ℤ) (h1 : (n : ℚ) ≤ q * 100)
    (h2 : q * 100 < (n : ℚ) + 1/2) : round2 q = (n : ℚ) / 100 := by
  unfold round2
  rw [rhe_eval_lt (q * 100) n h1 h2]

theorem round2_zero : round2 0 = 0 := by
  have h := round2_eval 0 0 (by norm_num) (by norm_num)
  simpa using h

theorem parse_0900 : parseHHMM "09:00" = some (9, 0) := rfl

theorem parse_1700 : parseHHMM "17:00" = some (17, 0) := rfl

theorem parse_1720 : parseHHMM "17:20" = some (17, 20) := rfl

theorem duracion_0900_1720 : duracionBloque (9, 0) (17, 20) false = 25/3 := by
  norm_num [duracionBloque]

theorem noct_0900_1720 : horasNoctBloque (9, 0) (17, 20) false = 0 := by
  norm_num [horasNoctBloque, max_def, min_def]

theorem charNat0 : Char.toNat '0' = 48 := rfl

theorem charNat1 : Char.toNat '1' = 49 := rfl

theorem charNat2 : Char.toNat '2' = 50 := rfl

theorem charNat7 : Char.toNat '7' = 55 := rfl

theorem charNat9 : Char.toNat '9' = 57 := rfl

theorem round2_25_3 : round2 (25/3) = 833/100 :=
  round2_eval (25/3) 833 (by norm_num) (by norm_num)

theorem round2_175_3 : round2 (175/3) = 5833/100 :=
  round2_eval (175/3) 5833 (by norm_num) (by norm_num)

theorem inter_diurno : interseccionNocturna (9, 0) (17, 0) false = 0 := by
  norm_num [interseccionNocturna, max_def, min_def]

theorem sinNoct_diurno : bloqueSinNocturnidad bloqueDiurno = true := by
  simp only [bloqueSinNocturnidad, bloqueDiurno, parse_0900, parse_1700,
    inter_diurno, decide_eq_true_eq]

/-- **C4** (counterexample to the frozen wording).  A single block worked
seven days at 09:00-17:20 stores `round2 (25/3) = 8.33` in each per-day
entry but accumulates the exact `25/3` per day in the total, giving a
total of 58.33 against a per-day sum of 58.31: off by 0.02, which is
outside 2-decimal rounding tolerance. -/
theorem c4_counterexample :
    ¬ (|(calcular_resumen_horario [bloqueSieteDias]).total_horas_semanales -
        sumaPorDia (calcular_resumen_horario [bloqueSieteDias])| ≤ 1 / 100 ∧
      (calcular_resumen_horario [bloqueSieteDias]).bloques_por_dia.map Prod.fst =
        (calcular_resumen_horario [bloqueSieteDias]).dias_trabajo) := by
  have hT : (calcular_resumen_horario [bloqueSieteDias]).total_horas_semanales =
      5833/100 := by
    unfold calcular_resumen_horario
    simp only [bloqueSieteDias, List.foldl, procesaBloque, estadoInicial, parse_0900,
      parse_1720, diasLoop, insDia, dedupSortNat, insSorted, duracion_0900_1720,
      noct_0900_1720, mul_one]
    norm_num [duracionBloque, round2_175_3, charNat0, charNat1, charNat2, charNat7,
      charNat9]
  have hS : sumaPorDia (calcular_resumen_horario [bloqueSieteDias]) = 5831/100 := by
    unfold sumaPorDia calcular_resumen_horario
    simp only [bloqueSieteDias, List.foldl, procesaBloque, estadoInicial, parse_0900,
      parse_1720, diasLoop, insDia, dedupSortNat, insSorted, duracion_0900_1720,
      noct_0900_1720, List.replicate, List.set, List.filterMap, List.map, List.sum,
      Option.getD, List.isEmpty, round2_zero, mul_one]
    norm_num [duracionBloque, round2_25_3, charNat0, charNat1, charNat2, charNat7,
      charNat9]
  rintro ⟨habs, -⟩
  rw [hT, hS] at habs
  have habs2 : |(5833 : ℚ)/100 - 5831/100| = 2/100 := by
    rw [show (5833 : ℚ)/100 - 5831/100 = 2/100 by norm_num]
    exact abs_of_nonneg (by norm_num)
  rw [habs2] at habs
  norm_num at habs

/-- **C4** (amended).  For a block list all of whose day indices are
below 8 (as every parser-produced block is), the summary total equals the
2-decimal rounding of the exact sum of the blocks' contributions
(duration x distinct days x periodicity factor), and the worked-days list
equals the keys of the non-empty per-day buckets.  The frozen per-entry
form fails because each per-day entry stores an already-rounded value. -/
theorem c4_amended (bloques : List ScheduleBlock)
    (h8 : ∀ b ∈ bloques, ∀ d ∈ b.dias_semana, d < 8) :
    (calcular_resumen_horario bloques).total_horas_semanales =
      round2 (horasSemanalesExactas bloques) ∧
    (calcular_resumen_horario bloques).bloques_por_dia.map Prod.fst =
      (calcular_resumen_horario bloques).dias_trabajo := by
  obtain ⟨h1, h2, h3⟩ := foldl_procesa_inv bloques estadoInicial rfl
    (by intro d hd; cases hd) h8
  unfold calcular_resumen_horario
  constructor
  · simp only []
    rw [h3, show estadoInicial.total_horas = 0 from rfl, zero_add]
  · simp only []
    apply filterMap_keys
    intro d hd
    have hmem : d ∈ (bloques.foldl procesaBloque estadoInicial).dias_trabajo :=
      (mem_dedupSortNat d _).mp hd
    have hnv := h2 d hmem
    refine ⟨(bloques.foldl procesaBloque estadoInicial).bloques_por_dia.getD d [], ?_⟩
    rw [if_pos (show (!((bloques.foldl procesaBloque
      estadoInicial).bloques_por_dia.getD d []).isEmpty) = true by rw [hnv]; rfl)]

theorem c4_witness :
    (calcular_resumen_horario [bloqueSieteDias]).total_horas_semanales =
      round2 (horasSemanalesExactas [bloqueSieteDias]) ∧
    (calcular_resumen_horario [bloqueSieteDias]).bloques_por_dia.map Prod.fst =
      (calcular_resumen_horario [bloqueSieteDias]).dias_trabajo :=
  c4_amended [bloqueSieteDias] (by decide)

theorem horasNoct_eq_inter (hi hf : ℕ × ℕ) (cruza : Bool) :
    horasNoctBloque hi hf cruza = interseccionNocturna hi hf cruza := by
  simp only [horasNoctBloque, interseccionNocturna]
  by_cases h : max ((hi.1 : ℚ) + (hi.2 : ℚ) / 60) 22 <
      min ((hf.1 : ℚ) + (hf.2 : ℚ) / 60 + (if cruza then 24 else 0)) 30
  · rw [if_pos h]
    have hpos : (0 : ℚ) ≤ min ((hf.1 : ℚ) + (hf.2 : ℚ) / 60 + (if cruza then 24 else 0)) 30 -
        max ((hi.1 : ℚ) + (hi.2 : ℚ) / 60) 22 := by linarith
    rw [max_eq_right hpos]
  · rw [if_neg h]
    have hle : min ((hf.1 : ℚ) + (hf.2 : ℚ) / 60 + (if cruza then 24 else 0)) 30 -
        max ((hi.1 : ℚ) + (hi.2 : ℚ) / 60) 22 ≤ 0 := by linarith [not_lt.mp h]
    rw [max_eq_left hle]

theorem foldl_sin_nocturnidad (bs : List ScheduleBlock) :
    ∀ st : EstadoResumen, (∀ b ∈ bs, bloqueSinNocturnidad b = true) →
      (bs.foldl procesaBloque st).total_horas_nocturnas =
        st.total_horas_nocturnas := by
  induction bs with
  | nil => intro st _; rfl
  | cons b rest ih =>
    intro st hb
    rw [List.foldl_cons, ih _ (fun x hx => hb x (List.mem_cons_of_mem b hx))]
    have hbn := hb b (List.mem_cons_self b rest)
    unfold bloqueSinNocturnidad at hbn
    unfold procesaBloque
    cases hpi : parseHHMM b.hora_inicio with
    | none => simp [hpi]
    | some hi =>
      cases hpf : parseHHMM b.hora_fin with
      | none => simp [hpi, hpf]
      | some hf =>
        simp only [hpi, hpf] at hbn
        have hz : interseccionNocturna hi hf b.cruza_dia = 0 := of_decide_eq_true hbn
        have hz2 : horasNoctBloque hi hf b.cruza_dia = 0 := by
          rw [horasNoct_eq_inter, hz]
        simp only [hpi, hpf]
        split
        · simp [hz2]
        · rfl

/-- **C5** (confirmed).  The summarizer's per-block nocturnal hours are
exactly the length of the intersection of the block's interval (end
shifted by 24h when overnight) with the window `[22:00, 06:00+24h]` on
the same-day axis, 0 when disjoint; hence a block list in which no
parsed block meets the window yields total night hours 0. -/
theorem c5_theorem :
    (∀ hi hf cruza, horasNoctBloque hi hf cruza = interseccionNocturna hi hf cruza) ∧
    ∀ bloques : List ScheduleBlock,
      (∀ b ∈ bloques, bloqueSinNocturnidad b = true) →
      (calcular_resumen_horario bloques).total_horas_nocturnas = 0 := by
  refine ⟨horasNoct_eq_inter, ?_⟩
  intro bloques hb
  unfold calcular_resumen_horario
  simp only []
  rw [foldl_sin_nocturnidad bloques estadoInicial hb,
    show estadoInicial.total_horas_nocturnas = 0 from rfl]
  exact round2_zero

theorem c5_witness :
    (calcular_resumen_horario [bloqueDiurno]).total_horas_nocturnas = 0 :=
  c5_theorem.2 [bloqueDiurno] (by simp [sinNoct_diurno])

theorem digit_ne_dot (c : Char) (h : isAsciiDigit c = true) : c ≠ '.' := by
  intro he
  subst he
  exact absurd h (by decide)

theorem digit_ne_colon (c : Char) (h : isAsciiDigit c = true) : c ≠ ':' := by
  intro he
  subst he
  exact absurd h (by decide)

theorem digit0 : isAsciiDigit '0' = true := by decide

theorem timeCandidates_shape (cs : List Char) :
    ∀ p ∈ timeCandidates cs, timeShape p.1 = true := by
  intro p hp
  match cs with
  | [] => exact absurd hp (by simp [timeCandidates])
  | [c1] =>
    simp only [timeCandidates] at hp
    split_ifs at hp <;>
      simp only [List.mem_append, List.mem_cons, List.mem_singleton,
        List.not_mem_nil, List.nil_append, List.append_nil, false_or,
        or_false, or_assoc] at hp <;>
      (first
        | (rcases hp with rfl | rfl | rfl | rfl)
        | (rcases hp with rfl | rfl | rfl)
        | (rcases hp with rfl | rfl)
        | (rcases hp with rfl)) <;>
      simp_all [timeShape]
  | [c1, c2] =>
    simp only [timeCandidates] at hp
    split_ifs at hp <;>
      simp only [List.mem_append, List.mem_cons, List.mem_singleton,
        List.not_mem_nil, List.nil_append, List.append_nil, false_or,
        or_false, or_assoc] at hp <;>
      (first
        | (rcases hp with rfl | rfl | rfl | rfl)
        | (rcases hp with rfl | rfl | rfl)
        | (rcases hp with rfl | rfl)
        | (rcases hp with rfl)) <;>
      simp_all [timeShape]
  | [c1, c2, c3] =>
    simp only [timeCandidates] at hp
    split_ifs at hp <;>
      simp only [List.mem_append, List.mem_cons, List.mem_singleton,
        List.not_mem_nil, List.nil_append, List.append_nil, false_or,
        or_false, or_assoc] at hp <;>
      (first
        | (rcases hp with rfl | rfl | rfl | rfl)
        | (rcases hp with rfl | rfl | rfl)
        | (rcases hp with rfl | rfl)
        | (rcases hp with rfl)) <;>
      simp_all [timeShape]
  | [c1, c2, c3, c4] =>
    simp only [timeCandidates] at hp
    split_ifs at hp <;>
      simp only [List.mem_append, List.mem_cons, List.mem_singleton,
        List.not_mem_nil, List.nil_append, List.append_nil, false_or,
        or_false, or_assoc] at hp <;>
      (first
        | (rcases hp with rfl | rfl | rfl | rfl)
        | (rcases hp with rfl | rfl | rfl)
        | (rcases hp with rfl | rfl)
        | (rcases hp with rfl)) <;>
      simp_all [timeShape]
  | c1 :: c2 :: c3 :: c4 :: c5 :: rest =>
    simp only [timeCandidates] at hp
    split_ifs at hp <;>
      simp only [List.mem_append, List.mem_cons, List.mem_singleton,
        List.not_mem_nil, List.nil_append, List.append_nil, false_or,
        or_false, or_assoc] at hp <;>
      (first
        | (rcases hp with rfl | rfl | rfl | rfl)
        | (rcases hp with rfl | rfl | rfl)
        | (rcases hp with rfl | rfl)
        | (rcases hp with rfl)) <;>
      simp_all [timeShape]

theorem tryCont_shape (cs c g2 g3 r : List Char)
    (h : tryCont cs = some (c, g2, g3, r)) :
    timeShape g2 = true ∧ timeShape g3 = true := by
  unfold tryCont at h
  obtain ⟨dc, hdc, h2⟩ := List.exists_of_findSome?_eq_some h
  obtain ⟨g2c, hg2c, h3⟩ := List.exists_of_findSome?_eq_some h2
  split at h3
  · exact absurd h3 (by simp)
  · obtain ⟨g3c, hg3c, h4⟩ := List.exists_of_findSome?_eq_some h3
    simp only [Option.some.injEq, Prod.mk.injEq] at h4
    obtain ⟨-, h5, h6, -⟩ := h4
    subst h5
    subst h6
    exact ⟨timeCandidates_shape _ _ hg2c, timeCandidates_shape _ _ hg3c⟩

theorem g1Search_shape : ∀ (fuel : ℕ) (g1 cs : List Char) (seg : Seg)
    (rest : List Char), g1Search fuel g1 cs = some (seg, rest) →
    timeShape seg.g2.data = true ∧ timeShape seg.g3.data = true := by
  intro fuel
  induction fuel with
  | zero =>
    intro g1 cs seg rest h
    rw [g1Search] at h
    split at h
    · rename_i ccons g2 g3 r heq
      simp only [Option.some.injEq, Prod.mk.injEq] at h
      obtain ⟨hseg, -⟩ := h
      subst hseg
      exact tryCont_shape cs ccons g2 g3 r heq
    · exact absurd h (by simp)
  | succ n ih =>
    intro g1 cs seg rest h
    rw [g1Search] at h
    split at h
    · rename_i ccons g2 g3 r heq
      simp only [Option.some.injEq, Prod.mk.injEq] at h
      obtain ⟨hseg, -⟩ := h
      subst hseg
      exact tryCont_shape cs ccons g2 g3 r heq
    · obtain ⟨ur, hur, hrec⟩ := List.exists_of_findSome?_eq_some h
      exact ih _ _ _ _ hrec

theorem matchAt_shape (cs : List Char) (seg : Seg) (rest : List Char)
    (h : matchAt cs = some (seg, rest)) :
    timeShape seg.g2.data = true ∧ timeShape seg.g3.data = true := by
  unfold matchAt at h
  obtain ⟨ur, hur, hrec⟩ := List.exists_of_findSome?_eq_some h
  exact g1Search_shape _ _ _ _ _ hrec

theorem finditerAux_shape : ∀ (fuel : ℕ) (cs : List Char) (seg : Seg),
    seg ∈ finditerAux fuel cs →
    timeShape seg.g2.data = true ∧ timeShape seg.g3.data = true := by
  intro fuel
  induction fuel with
  | zero =>
    intro cs seg h
    exact absurd h (by simp [finditerAux])
  | succ n ih =>
    intro cs seg h
    match cs with
    | [] => exact absurd h (by simp [finditerAux])
    | c :: cs' =>
      simp only [finditerAux] at h
      split at h
      · rename_i seg' rest heq
        rcases List.mem_cons.mp h with rfl | hmem
        · exact matchAt_shape _ _ _ heq
        · exact ih _ _ hmem
      · exact ih _ _ h

theorem searchPattern_shape (s : String) (seg : Seg)
    (h : searchPattern s = some seg) :
    timeShape seg.g2.data = true ∧ timeShape seg.g3.data = true := by
  unfold searchPattern at h
  exact finditerAux_shape _ _ _ (List.mem_of_mem_head? (Option.mem_def.mpr h))

theorem division_shape (t : String) (seg : Seg)
    (h : seg ∈ division_inteligente_bloques t) :
    timeShape seg.g2.data = true ∧ timeShape seg.g3.data = true := by
  unfold division_inteligente_bloques at h
  obtain ⟨parte, hparte, hsp⟩ := List.mem_filterMap.mp h
  split at hsp
  · exact absurd hsp (by simp)
  · exact searchPattern_shape _ _ hsp

theorem parse_split (s : String) :
    parse_schedule_string s = [] ∨
    ∃ segs : List Seg,
      (∀ seg ∈ segs, timeShape seg.g2.data = true ∧ timeShape seg.g3.data = true) ∧
      parse_schedule_string s = mkBlocks segs [] := by
  by_cases hs : s = ""
  · left
    simp [parse_schedule_string, hs]
  · unfold parse_schedule_string
    rw [if_neg hs]
    by_cases h1 : (finditerPattern (apply_equivalences (clean_and_standardize s)
        EQUIVALENCIAS)).isEmpty ∧
        ((apply_equivalences (clean_and_standardize s) EQUIVALENCIAS).data.contains 'Y' ∨
         (apply_equivalences (clean_and_standardize s) EQUIVALENCIAS).data.contains 'y')
    · by_cases h2 : (division_inteligente_bloques (apply_equivalences
          (clean_and_standardize s) EQUIVALENCIAS)).isEmpty
      · left
        simp at h1 h2
        simp [h1, h2]
      · right
        refine ⟨division_inteligente_bloques (apply_equivalences
            (clean_and_standardize s) EQUIVALENCIAS),
          fun seg hseg => division_shape _ _ hseg, ?_⟩
        simp at h1 h2
        simp [h1, h2]
    · by_cases h2 : (finditerPattern (apply_equivalences (clean_and_standardize s)
          EQUIVALENCIAS)).isEmpty
      · left
        simp at h1 h2
        simp [h1, h2]
      · right
        refine ⟨finditerPattern (apply_equivalences (clean_and_standardize s)
            EQUIVALENCIAS),
          fun seg hseg => finditerAux_shape _ _ _ hseg, ?_⟩
        simp at h1 h2
        simp [h1, h2]

theorem mkBloque_campos (seg : Seg) (n : ℕ) (b : ScheduleBlock)
    (h : mkBloque seg n = some b) :
    b.hora_inicio = format_time_to_hhmm seg.g2 ∧
    b.hora_fin = format_time_to_hhmm seg.g3 ∧
    b.cruza_dia = pyStrLt b.hora_fin b.hora_inicio := by
  unfold mkBloque at h
  simp only [] at h
  split at h
  · exact absurd h (by simp)
  · split at h
    · exact absurd h (by simp)
    · split at h
      · exact absurd h (by simp)
      · simp only [Option.some.injEq] at h
        subst h
        exact ⟨rfl, rfl, rfl⟩

theorem mkBlocks_forall (P : ScheduleBlock → Prop) :
    ∀ (segs : List Seg) (acc : List ScheduleBlock),
      (∀ b ∈ acc, P b) →
      (∀ seg ∈ segs, ∀ n b, mkBloque seg n = some b → P b) →
      ∀ b ∈ mkBlocks segs acc, P b := by
  intro segs
  induction segs with
  | nil =>
    intro acc hacc _ b hb
    exact hacc b hb
  | cons seg rest ih =>
    intro acc hacc hnew b hb
    simp only [mkBlocks] at hb
    split at hb
    · rename_i b' heq
      refine ih (acc ++ [b']) ?_ (fun s hs => hnew s (List.mem_cons_of_mem _ hs)) b hb
      intro x hx
      rcases List.mem_append.mp hx with hx | hx
      · exact hacc x hx
      · rw [List.mem_singleton] at hx
        subst hx
        exact hnew seg (List.mem_cons_self _ _) _ _ heq
    · exact ih acc hacc (fun s hs => hnew s (List.mem_cons_of_mem _ hs)) b hb

theorem format_shape (t : String) (h : timeShape t.data = true) :
    hhmm99 (format_time_to_hhmm t) = true := by
  unfold timeShape at h
  split at h
  · rename_i d heq
    have hnd : d ≠ '.' := digit_ne_dot d h
    have hnc : d ≠ ':' := digit_ne_colon d h
    unfold format_time_to_hhmm
    rw [heq]
    simp [hnd, hnc, Ne.symm hnd, Ne.symm hnc, zfill2, hhmm99, digit0, h,
      pySplitChar, ljust2trunc, List.contains, List.elem]
  · rename_i d1 d2 heq
    simp only [Bool.and_eq_true] at h
    obtain ⟨h1, h2⟩ := h
    have hnd1 : d1 ≠ '.' := digit_ne_dot d1 h1
    have hnc1 : d1 ≠ ':' := digit_ne_colon d1 h1
    have hnd2 : d2 ≠ '.' := digit_ne_dot d2 h2
    have hnc2 : d2 ≠ ':' := digit_ne_colon d2 h2
    unfold format_time_to_hhmm
    rw [heq]
    simp [hnd1, hnc1, hnd2, hnc2, Ne.symm hnd1, Ne.symm hnc1, Ne.symm hnd2,
      Ne.symm hnc2, zfill2, hhmm99, h1, h2, pySplitChar, ljust2trunc,
      List.contains, List.elem, digit0]
  · rename_i d p m1 m2 heq
    simp only [Bool.and_eq_true, Bool.or_eq_true, decide_eq_true_eq] at h
    obtain ⟨⟨⟨hd, hp⟩, hm1⟩, hm2⟩ := h
    have hnd : d ≠ '.' := digit_ne_dot d hd
    have hnc : d ≠ ':' := digit_ne_colon d hd
    have hnm1d : m1 ≠ '.' := digit_ne_dot m1 hm1
    have hnm1c : m1 ≠ ':' := digit_ne_colon m1 hm1
    have hnm2d : m2 ≠ '.' := digit_ne_dot m2 hm2
    have hnm2c : m2 ≠ ':' := digit_ne_colon m2 hm2
    unfold format_time_to_hhmm
    rw [heq]
    rcases hp with hp | hp <;> subst hp <;>
      simp [hnd, hnc, Ne.symm hnd, Ne.symm hnc, hnm1d, hnm1c, hnm2d, hnm2c,
        Ne.symm hnm1d, Ne.symm hnm1c, Ne.symm hnm2d, Ne.symm hnm2c, pySplitChar,
        zfill2, ljust2trunc, hhmm99, hd, hm1, hm2, digit0]
  · rename_i d1 d2 p m1 m2 heq
    simp only [Bool.and_eq_true, Bool.or_eq_true, decide_eq_true_eq] at h
    obtain ⟨⟨⟨⟨hd1, hd2⟩, hp⟩, hm1⟩, hm2⟩ := h
    have hnd1 : d1 ≠ '.' := digit_ne_dot d1 hd1
    have hnc1 : d1 ≠ ':' := digit_ne_colon d1 hd1
    have hnd2 : d2 ≠ '.' := digit_ne_dot d2 hd2
    have hnc2 : d2 ≠ ':' := digit_ne_colon d2 hd2
    have hnm1d : m1 ≠ '.' := digit_ne_dot m1 hm1
    have hnm1c : m1 ≠ ':' := digit_ne_colon m1 hm1
    have hnm2d : m2 ≠ '.' := digit_ne_dot m2 hm2
    have hnm2c : m2 ≠ ':' := digit_ne_colon m2 hm2
    unfold format_time_to_hhmm
    rw [heq]
    rcases hp with hp | hp <;> subst hp <;>
      simp [hnd1, hnc1, hnd2, hnc2, Ne.symm hnd1, Ne.symm hnc1, Ne.symm hnd2,
        Ne.symm hnc2, hnm1d, hnm1c, hnm2d, hnm2c, Ne.symm hnm1d, Ne.symm hnm1c,
        Ne.symm hnm2d, Ne.symm hnm2c, pySplitChar, zfill2, ljust2trunc, hhmm99,
        hd1, hd2, hm1, hm2]
  · exact absurd h (by simp)

set_option maxRecDepth 1000000 in
/-- **C6** (counterexample to the frozen wording).  "lunes 8 a 8" yields a
block whose end time equals its start time, yet the overnight flag is
false: the code marks overnight only on a STRICT start > end comparison,
so end ≤ start does not imply the flag. -/
theorem c6_counterexample :
    ∃ b ∈ parse_schedule_string "lunes 8 a 8",
      b.hora_fin = b.hora_inicio ∧ b.cruza_dia = false := by
  refine ⟨⟨"lunes_0800_0800_semanal_0", [0], "08:00", "08:00", ⟨"semanal", 1⟩,
    "lunes 8 a 8", false⟩, ?_, rfl, rfl⟩
  decide

/-- **C6** (amended).  For every block the parser produces, the overnight
flag is true exactly when the end-time string is STRICTLY smaller than
the start-time string. -/
theorem c6_amended (s : String) (b : ScheduleBlock)
    (hb : b ∈ parse_schedule_string s) :
    b.cruza_dia = true ↔ pyStrLt b.hora_fin b.hora_inicio = true := by
  rcases parse_split s with h | ⟨segs, hsegs, h⟩
  · rw [h] at hb
    cases hb
  · rw [h] at hb
    refine mkBlocks_forall
      (fun b => b.cruza_dia = true ↔ pyStrLt b.hora_fin b.hora_inicio = true) segs []
      (by intro x hx; cases hx) ?_ b hb
    intro seg hseg n b' hmk
    obtain ⟨-, -, h3⟩ := mkBloque_campos seg n b' hmk
    rw [h3]

set_option maxRecDepth 1000000 in
theorem c6_witness :
    bloqueLunes917.cruza_dia = true ↔
      pyStrLt bloqueLunes917.hora_fin bloqueLunes917.hora_inicio = true :=
  c6_amended "lunes 9 a 17" bloqueLunes917 (by decide)

set_option maxRecDepth 1000000 in
/-- **C7** (counterexample to the frozen wording).  "lunes 25 a 8.75" is
accepted by the extraction regex, so the parser emits a block with start
"25:00" (hour above 23) and end "08:75" (minutes above 59). -/
theorem c7_counterexample :
    ∃ b ∈ parse_schedule_string "lunes 25 a 8.75",
      hhmm23 b.hora_inicio = false ∧ hhmm23 b.hora_fin = false := by
  refine ⟨⟨"lunes_2500_0875_semanal_0", [0], "25:00", "08:75", ⟨"semanal", 1⟩,
    "lunes 25 a 8.75", true⟩, ?_, rfl, rfl⟩
  decide

/-- **C7** (amended).  Every block the parser produces has start and end
times of the shape two digits, ':', two digits; the digits are NOT
clock-validated (hours up to 99 and minutes up to 99 can occur), only the
five-character zero-padded shape is guaranteed. -/
theorem c7_amended (s : String) (b : ScheduleBlock)
    (hb : b ∈ parse_schedule_string s) :
    hhmm99 b.hora_inicio = true ∧ hhmm99 b.hora_fin = true := by
  rcases parse_split s with h | ⟨segs, hsegs, h⟩
  · rw [h] at hb
    cases hb
  · rw [h] at hb
    refine mkBlocks_forall
      (fun b => hhmm99 b.hora_inicio = true ∧ hhmm99 b.hora_fin = true) segs []
      (by intro x hx; cases hx) ?_ b hb
    intro seg hseg n b' hmk
    obtain ⟨h1, h2, -⟩ := mkBloque_campos seg n b' hmk
    obtain ⟨hs2, hs3⟩ := hsegs seg hseg
    rw [h1, h2]
    exact ⟨format_shape _ hs2, format_shape _ hs3⟩

set_option maxRecDepth 1000000 in
theorem c7_witness :
    hhmm99 bloqueMartes1018.hora_inicio = true ∧
    hhmm99 bloqueMartes1018.hora_fin = true :=
  c7_amended "martes 10 a 18" bloqueMartes1018 (by decide)
